import Mathlib

/-!
Verification development for the e-mail classification core
(`backend/llm_client.py`, `backend/nlp_utils.py`).

The Python source is shallowly embedded:

* machine text is `String` / `List Char`; Python `str` helpers (`lower`,
  `capitalize`, `strip`, substring test) are modelled char-wise on the
  ASCII + Latin-1 block that the program manipulates;
* `re.sub` with the fixed anonymization patterns is compiled to a
  left-to-right scanner (`subScan`) driven by deterministic matchers:
  the patterns involved have no effective backtracking, so maximal-munch
  per start position is exact;
* `json.loads` is a fuel-based strict JSON parser producing `JVal`
  (numbers are read into `ℚ`; Python floats are idealized as rationals);
* the external LLM call (`openai.ChatCompletion.create` wrapped in
  `_retry_backoff_call`) is an oracle argument `reply : Option String`:
  `some s` is the content returned on success, `none` is the case where
  the call (or the surrounding retry loop) raised; the request that the
  code would send is returned alongside the result so that prompt and
  retry-budget facts are visible;
* Python exceptions are `Except` / `Option`; "non-string input" is the
  `none` case of an `Option String` argument.
-/

/-! ## Character classes and Python string helpers -/

/-- ASCII decimal digit, the model of the regex class `\d` (the source
only manipulates ASCII digits). -/
def isDigitCh (c : Char) : Bool := 48 ≤ c.toNat && c.toNat ≤ 57

/-- Model of the regex class `\w` (for `\b` word boundaries): ASCII
alphanumerics, underscore, and the Latin-1 letters (`À`-`ÿ` minus the
two arithmetic signs).  Python's `re` is Unicode-aware; the source only
manipulates this block. -/
def isWordCh (c : Char) : Bool :=
  isDigitCh c || (65 ≤ c.toNat && c.toNat ≤ 90) || (97 ≤ c.toNat && c.toNat ≤ 122)
    || c = '_' || (0xC0 ≤ c.toNat && c.toNat ≤ 0xFF && c.toNat ≠ 0xD7 && c.toNat ≠ 0xF7)

/-- Python whitespace (`str.strip`, `str.split`, regex `\s`), modelled on
the ASCII whitespace characters. -/
def isPySpace (c : Char) : Bool :=
  c = ' ' || c = '\t' || c = '\n' || c = '\r' || c = Char.ofNat 11 || c = Char.ofNat 12

/-- Char-wise model of Python `str.lower` on ASCII + Latin-1 (`×` is not
cased; characters outside the block are left unchanged). -/
def lowChar (c : Char) : Char :=
  if 65 ≤ c.toNat ∧ c.toNat ≤ 90 then Char.ofNat (c.toNat + 32)
  else if 0xC0 ≤ c.toNat ∧ c.toNat ≤ 0xDE ∧ c.toNat ≠ 0xD7 then Char.ofNat (c.toNat + 32)
  else c

/-- Char-wise model of Python upper/title-casing on ASCII + Latin-1
(`÷` is not cased; `ß`/`ÿ`, whose Python upper-case leaves Latin-1, are
left unchanged). -/
def upChar (c : Char) : Char :=
  if 97 ≤ c.toNat ∧ c.toNat ≤ 122 then Char.ofNat (c.toNat - 32)
  else if 0xE0 ≤ c.toNat ∧ c.toNat ≤ 0xFE ∧ c.toNat ≠ 0xF7 then Char.ofNat (c.toNat - 32)
  else c

/-- Python `str.lower`. -/
def pyLower (s : String) : String := ⟨s.data.map lowChar⟩

/-- Python `str.capitalize`: first character title-cased, the rest
lower-cased. -/
def pyCapitalize (s : String) : String :=
  match s.data with
  | [] => ""
  | c :: cs => ⟨upChar c :: cs.map lowChar⟩

/-- `str.strip` on a character list. -/
def stripL (l : List Char) : List Char :=
  ((l.dropWhile isPySpace).reverse.dropWhile isPySpace).reverse

/-- Python `str.strip` (no arguments: strip whitespace on both ends). -/
def pyStrip (s : String) : String := ⟨stripL s.data⟩

/-- `startsL pat l`: `pat` is a leading segment of `l`. -/
def startsL : List Char → List Char → Bool
  | [], _ => true
  | _ :: _, [] => false
  | a :: as, b :: bs => a == b && startsL as bs

/-- `subL pat l`: Python `pat in l` substring test. -/
def subL (pat : List Char) : List Char → Bool
  | [] => startsL pat []
  | c :: cs => startsL pat (c :: cs) || subL pat cs

/-! ## The anonymization scanners (`anonymize_text`)

Each `re.sub(pattern, repl, text)` call in `anonymize_text` is embedded
as `subScan try_ repl none text`: the scanner walks the original text
left to right, at each position asks the pattern's deterministic matcher
`try_ prev head rest` for a match (`some k` means the match is
`head :: rest.take k`, i.e. has length `k+1`), splices in `repl` and
resumes right after the match, exactly like `re.sub`.  `prev` is the
preceding character of the *original* text (`none` at the start), which
is all the `\b` word-boundary assertions can observe. -/

/-- Tokens of the digit/punctuation patterns used by `anonymize_text`:
`dexact k` is `\d{k}`, `dmin k` is the greedy `\d{k,}`, `lit c` a
literal separator character. -/
inductive Tok where
  | dexact : Nat → Tok
  | dmin : Nat → Tok
  | lit : Char → Tok
deriving DecidableEq

/-- Word-boundary helper: `none`/start-of-text and non-word characters
are boundaries next to a digit. -/
def nwOpt : Option Char → Bool
  | none => true
  | some c => !(isWordCh c)

/-- The next character (if any) is a non-word character: the trailing
`\b` test of the digit patterns. -/
def headNonWord : List Char → Bool
  | [] => true
  | c :: _ => !(isWordCh c)

/-- Run a token list against the front of `l`; returns the number of
characters consumed and the remainder.  `dmin` consumes a maximal digit
run (the regexes' greedy `\d{k,}` cannot profitably backtrack against a
trailing `\b`, since digits are word characters). -/
def tokConsume : List Tok → List Char → Option (Nat × List Char)
  | [], l => some (0, l)
  | Tok.dexact 0 :: ts, l => tokConsume ts l
  | Tok.dexact (_ + 1) :: _, [] => none
  | Tok.dexact (k + 1) :: ts, c :: cs =>
    if isDigitCh c then (tokConsume (Tok.dexact k :: ts) cs).map (fun p => (p.1 + 1, p.2))
    else none
  | Tok.dmin k :: ts, [] => if k = 0 then tokConsume ts [] else none
  | Tok.dmin k :: ts, c :: cs =>
    if isDigitCh c then (tokConsume (Tok.dmin (k - 1) :: ts) cs).map (fun p => (p.1 + 1, p.2))
    else if k = 0 then tokConsume ts (c :: cs)
    else none
  | Tok.lit _ :: _, [] => none
  | Tok.lit ch :: ts, c :: cs =>
    if c = ch then (tokConsume ts cs).map (fun p => (p.1 + 1, p.2)) else none
termination_by toks l => l.length + toks.length

/-- Matcher for a `\b <tokens> \b` pattern at the current position. -/
def tryTok (toks : List Tok) (p : Option Char) (c : Char) (cs : List Char) : Option Nat :=
  if nwOpt p then
    match tokConsume toks (c :: cs) with
    | some (n, rest) =>
      if headNonWord rest then (match n with | 0 => none | m + 1 => some m) else none
    | none => none
  else none

/-- Character class of the e-mail pattern's local part
`[a-zA-Z0-9_.+-]`. -/
def inLocal (c : Char) : Bool :=
  c.isAlphanum || c = '_' || c = '.' || c = '+' || c = '-'

/-- Character class `[a-zA-Z0-9-]` (domain head). -/
def inDom1 (c : Char) : Bool := c.isAlphanum || c = '-'

/-- Character class `[a-zA-Z0-9-.]` (domain tail). -/
def inDom2 (c : Char) : Bool := inDom1 c || c = '.'

/-- `runLit π χ l`: consume a greedy `π*` run followed by the literal
`χ` (which is outside the class `π` wherever this is used, so greedy
maximal-munch is the unique regex behaviour); returns the number of
characters consumed including `χ`. -/
def runLit (π : Char → Bool) (χ : Char) : List Char → Option Nat
  | [] => none
  | c :: cs => if π c then (runLit π χ cs).map (· + 1) else if c = χ then some 1 else none

/-- Matcher for the e-mail pattern
`[a-zA-Z0-9_.+-]+@[a-zA-Z0-9-]+\.[a-zA-Z0-9-.]+` at the current
position: a local-part character, then `local* @` (`runLit`), a domain
character, `domain* .` (`runLit`), and a non-empty greedy tail run.
None of the classes contains the following delimiter, so greedy
maximal-munch is the unique regex match here. -/
def tryEmail (_p : Option Char) (c : Char) (cs : List Char) : Option Nat :=
  if inLocal c then
    match runLit inLocal '@' cs with
    | none => none
    | some n1 =>
      match cs.drop n1 with
      | d :: ds =>
        if inDom1 d then
          match runLit inDom1 '.' ds with
          | none => none
          | some n2 =>
            match ds.drop n2 with
            | e :: es =>
              if inDom2 e then some (n1 + n2 + (es.takeWhile inDom2).length + 2) else none
            | [] => none
        else none
      | [] => none
  else none

/-- `re.sub` for the fixed anonymization patterns: left-to-right scan of
the original text, splicing `repl` over each (non-overlapping, leftmost)
match. -/
def subScan (tm : Option Char → Char → List Char → Option Nat) (repl : List Char) :
    Option Char → List Char → List Char
  | _, [] => []
  | p, c :: cs =>
    match tm p c cs with
    | some k => repl ++ subScan tm repl (some ((c :: cs.take k).getLastD c)) (cs.drop k)
    | none => c :: subScan tm repl (some c) cs
termination_by _ l => l.length
decreasing_by
  · simp only [List.length_cons, List.length_drop]; omega
  · simp

/-- `re.search` (as a Boolean) for the same matchers: is there any
position where the matcher fires? -/
def hasScan (tm : Option Char → Char → List Char → Option Nat) :
    Option Char → List Char → Bool
  | _, [] => false
  | p, c :: cs => (tm p c cs).isSome || hasScan tm (some c) cs

/-- Pattern `\b\d{3}\.\d{3}\.\d{3}-\d{2}\b` (dotted CPF). -/
def cpfToks : List Tok :=
  [Tok.dexact 3, Tok.lit '.', Tok.dexact 3, Tok.lit '.', Tok.dexact 3, Tok.lit '-', Tok.dexact 2]

/-- Pattern `\b\d{11}\b` (raw CPF). -/
def elevenToks : List Tok := [Tok.dexact 11]

/-- Pattern `\b\d{2}\.\d{3}\.\d{3}/\d{4}-\d{2}\b` (dotted CNPJ). -/
def cnpjToks : List Tok :=
  [Tok.dexact 2, Tok.lit '.', Tok.dexact 3, Tok.lit '.', Tok.dexact 3, Tok.lit '/',
    Tok.dexact 4, Tok.lit '-', Tok.dexact 2]

/-- Pattern `\b\d{14}\b` (raw CNPJ). -/
def fourteenToks : List Tok := [Tok.dexact 14]

/-- Pattern `\b\d{6,}\b` (long digit run). -/
def run6Toks : List Tok := [Tok.dmin 6]

/-- All digit-token counts in the list are positive (true of the five
source patterns; intermediate counted-down lists need it only past the
head). -/
def toksPos : List Tok → Bool
  | [] => true
  | Tok.dexact k :: ts => (0 < k : Bool) && toksPos ts
  | Tok.dmin k :: ts => (0 < k : Bool) && toksPos ts
  | Tok.lit _ :: ts => toksPos ts

/-- The token list starts with a digit token. -/
def headDigitTok : List Tok → Bool
  | Tok.dexact _ :: _ => true
  | Tok.dmin _ :: _ => true
  | _ => false

/-- The token list starts with an exhausted (`0`-count) digit token. -/
def headZeroD : List Tok → Bool
  | Tok.dexact 0 :: _ => true
  | Tok.dmin 0 :: _ => true
  | _ => false

/-- No literal token is the bracket `[` (true of the source patterns,
whose literals are `.`, `-`, `/`). -/
def litsNoBracket : List Tok → Bool
  | [] => true
  | Tok.lit ch :: ts => (!(ch = '[' : Bool)) && litsNoBracket ts
  | _ :: ts => litsNoBracket ts

/-- The final token of the list is a digit token (every source pattern
ends with digits, so a match's last character is a digit). -/
def endsD : List Tok → Bool
  | [] => false
  | [Tok.dexact _] => true
  | [Tok.dmin _] => true
  | [Tok.lit _] => false
  | _ :: ts => endsD ts

/-- Replacement `[EMAIL_REMOVIDO]`. -/
def replEmail : List Char := "[EMAIL_REMOVIDO]".data

/-- Replacement `[PII_REMOVIDO]`. -/
def replPII : List Char := "[PII_REMOVIDO]".data

/-- Replacement `[NUM_REMOVIDO]`. -/
def replNum : List Char := "[NUM_REMOVIDO]".data

/-- The six `re.sub` passes of `anonymize_text`, in source order. -/
def anonymizeL (l : List Char) : List Char :=
  let t1 := subScan tryEmail replEmail none l
  let t2 := subScan (tryTok cpfToks) replPII none t1
  let t3 := subScan (tryTok elevenToks) replPII none t2
  let t4 := subScan (tryTok cnpjToks) replPII none t3
  let t5 := subScan (tryTok fourteenToks) replPII none t4
  subScan (tryTok run6Toks) replNum none t5

/-- `anonymize_text`: non-string input (the `none` case) yields `""`,
otherwise the six substitution passes are applied. -/
def anonymize_text : Option String → String
  | none => ""
  | some s => ⟨anonymizeL s.data⟩

/-- `re.search` of a `\b`-token pattern over a whole text. -/
def searchTok (toks : List Tok) (l : List Char) : Bool := hasScan (tryTok toks) none l

/-- `re.search` of the e-mail pattern over a whole text. -/
def searchEmail (l : List Char) : Bool := hasScan tryEmail none l

/-! ## JSON values and a model of `json.loads`

`_extract_json_from_text` feeds candidate spans to `json.loads`.  The
parser below is a strict JSON recursive-descent parser (fuel-indexed for
termination; the fuel `length + 2` is never exhausted on inputs the
grammar accepts, since every recursive call consumes input).  Numbers
are read into `ℚ` (Python's binary floats are idealized as rationals);
`\uXXXX` escapes outside the BMP/surrogate corner and Python's `NaN` /
`Infinity` extensions are not modelled — nothing proved here depends on
those corners. -/

/-- JSON values as decoded by `json.loads` (objects keep binding order;
lookups take the last binding, like assignment into a Python `dict`). -/
inductive JVal where
  | jnull : JVal
  | jbool : Bool → JVal
  | jnum : ℚ → JVal
  | jstr : String → JVal
  | jarr : List JVal → JVal
  | jobj : List (String × JVal) → JVal

/-- The `{` character (written via its code point). -/
def lbrace : Char := Char.ofNat 123

/-- The `}` character (written via its code point). -/
def rbrace : Char := Char.ofNat 125

/-- JSON insignificant whitespace. -/
def isJsonWs (c : Char) : Bool := c = ' ' || c = '\t' || c = '\n' || c = '\r'

/-- Skip insignificant whitespace. -/
def skipJWs (l : List Char) : List Char := l.dropWhile isJsonWs

/-- Hexadecimal digit value. -/
def hexVal (c : Char) : Option Nat :=
  if 48 ≤ c.toNat ∧ c.toNat ≤ 57 then some (c.toNat - 48)
  else if 97 ≤ c.toNat ∧ c.toNat ≤ 102 then some (c.toNat - 87)
  else if 65 ≤ c.toNat ∧ c.toNat ≤ 70 then some (c.toNat - 55)
  else none

/-- JSON string body (after the opening quote): returns the decoded
characters and the remainder after the closing quote. -/
def parseJStr : List Char → Except Unit (List Char × List Char)
  | [] => Except.error ()
  | c :: cs =>
    if c = '"' then Except.ok ([], cs)
    else if c = '\\' then
      match cs with
      | [] => Except.error ()
      | e :: cs2 =>
        if e = '"' ∨ e = '\\' ∨ e = '/' then (parseJStr cs2).map (fun p => (e :: p.1, p.2))
        else if e = 'b' then (parseJStr cs2).map (fun p => (Char.ofNat 8 :: p.1, p.2))
        else if e = 'f' then (parseJStr cs2).map (fun p => (Char.ofNat 12 :: p.1, p.2))
        else if e = 'n' then (parseJStr cs2).map (fun p => ('\n' :: p.1, p.2))
        else if e = 'r' then (parseJStr cs2).map (fun p => ('\r' :: p.1, p.2))
        else if e = 't' then (parseJStr cs2).map (fun p => ('\t' :: p.1, p.2))
        else if e = 'u' then
          match cs2 with
          | h1 :: h2 :: h3 :: h4 :: cs3 =>
            match hexVal h1, hexVal h2, hexVal h3, hexVal h4 with
            | some a, some b, some c2, some d =>
              (parseJStr cs3).map (fun p => (Char.ofNat (a * 4096 + b * 256 + c2 * 16 + d) :: p.1, p.2))
            | _, _, _, _ => Except.error ()
          | _ => Except.error ()
        else Except.error ()
    else if c.toNat < 32 then Except.error ()
    else (parseJStr cs).map (fun p => (c :: p.1, p.2))

/-- Fold decimal digits to a number. -/
def digitsToNat (l : List Char) : Nat := l.foldl (fun a c => a * 10 + (c.toNat - 48)) 0

/-- JSON number (strict grammar `-?(0|[1-9][0-9]*)(\.[0-9]+)?([eE][+-]?[0-9]+)?`);
returns the rational value and the remainder. -/
def parseJNum (l : List Char) : Except Unit (ℚ × List Char) :=
  let sp := (match l with | '-' :: r => ((-1 : ℚ), r) | _ => ((1 : ℚ), l))
  match sp.2 with
  | [] => Except.error ()
  | c :: r =>
    if ¬ isDigitCh c then Except.error ()
    else
      let ip := if c = '0' then [c] else (c :: r).takeWhile isDigitCh
      let r1 := sp.2.drop ip.length
      let base : ℚ := (digitsToNat ip : ℚ)
      let fr :=
        (match r1 with
         | '.' :: r2 =>
           let fp := r2.takeWhile isDigitCh
           if fp.length = 0 then none
           else some (base + (digitsToNat fp : ℚ) / (10 : ℚ) ^ fp.length, r2.drop fp.length)
         | _ => some (base, r1))
      match fr with
      | none => Except.error ()
      | some (m, r3) =>
        match r3 with
        | e :: r4 =>
          if e = 'e' ∨ e = 'E' then
            let se := (match r4 with
                       | '+' :: r5 => ((1 : ℤ), r5)
                       | '-' :: r5 => ((-1 : ℤ), r5)
                       | _ => ((1 : ℤ), r4))
            let ds := se.2.takeWhile isDigitCh
            if ds.length = 0 then Except.error ()
            else Except.ok (sp.1 * m * (10 : ℚ) ^ (se.1 * (digitsToNat ds : ℤ)), se.2.drop ds.length)
          else Except.ok (sp.1 * m, r3)
        | [] => Except.ok (sp.1 * m, r3)

mutual

/-- JSON value (fuel-indexed recursive descent). -/
def parseVal : Nat → List Char → Except Unit (JVal × List Char)
  | 0, _ => Except.error ()
  | fuel + 1, l =>
    match skipJWs l with
    | [] => Except.error ()
    | c :: cs =>
      if c = lbrace then
        match skipJWs cs with
        | d :: ds => if d = rbrace then Except.ok (JVal.jobj [], ds) else parseMembers fuel (d :: ds) []
        | [] => Except.error ()
      else if c = '[' then
        match skipJWs cs with
        | d :: ds => if d = ']' then Except.ok (JVal.jarr [], ds) else parseItems fuel (d :: ds) []
        | [] => Except.error ()
      else if c = '"' then (parseJStr cs).map (fun p => (JVal.jstr ⟨p.1⟩, p.2))
      else if c = 't' then
        (if startsL "rue".data cs then Except.ok (JVal.jbool true, cs.drop 3) else Except.error ())
      else if c = 'f' then
        (if startsL "alse".data cs then Except.ok (JVal.jbool false, cs.drop 4) else Except.error ())
      else if c = 'n' then
        (if startsL "ull".data cs then Except.ok (JVal.jnull, cs.drop 3) else Except.error ())
      else if c = '-' ∨ isDigitCh c then (parseJNum (c :: cs)).map (fun p => (JVal.jnum p.1, p.2))
      else Except.error ()

/-- Object members after the opening brace (object known non-empty). -/
def parseMembers : Nat → List Char → List (String × JVal) → Except Unit (JVal × List Char)
  | 0, _, _ => Except.error ()
  | fuel + 1, l, acc =>
    match skipJWs l with
    | c :: cs =>
      if c = '"' then
        match parseJStr cs with
        | Except.error _ => Except.error ()
        | Except.ok (k, r1) =>
          match skipJWs r1 with
          | ':' :: r2 =>
            match parseVal fuel r2 with
            | Except.error _ => Except.error ()
            | Except.ok (v, r3) =>
              match skipJWs r3 with
              | ',' :: r4 => parseMembers fuel r4 ((⟨k⟩, v) :: acc)
              | d :: r4 =>
                if d = rbrace then Except.ok (JVal.jobj (((⟨k⟩ : String), v) :: acc).reverse, r4)
                else Except.error ()
              | [] => Except.error ()
          | _ => Except.error ()
      else Except.error ()
    | [] => Except.error ()

/-- Array items after the opening bracket (array known non-empty). -/
def parseItems : Nat → List Char → List JVal → Except Unit (JVal × List Char)
  | 0, _, _ => Except.error ()
  | fuel + 1, l, acc =>
    match parseVal fuel l with
    | Except.error _ => Except.error ()
    | Except.ok (v, r1) =>
      match skipJWs r1 with
      | ',' :: r2 => parseItems fuel r2 (v :: acc)
      | d :: r2 => if d = ']' then Except.ok (JVal.jarr (v :: acc).reverse, r2) else Except.error ()
      | [] => Except.error ()

end

/-- `json.loads`: parse a whole text (trailing whitespace only). -/
def jparse (l : List Char) : Except Unit JVal :=
  match parseVal (l.length + 2) l with
  | Except.ok (v, rest) => if skipJWs rest = [] then Except.ok v else Except.error ()
  | Except.error _ => Except.error ()

/-! ## Python-level value helpers used by the classification pipeline -/

/-- Last-binding lookup in a decoded object: Python `json.loads` builds
the `dict` by successive assignment, so a repeated key keeps its last
value; `dict.get(k, default)` is `(lookupLast kvs k).getD default`. -/
def lookupLast (kvs : List (String × JVal)) (k : String) : Option JVal :=
  match kvs with
  | [] => none
  | (k1, v) :: rest =>
    match lookupLast rest k with
    | some w => some w
    | none => if k1 = k then some v else none

/-- Python truthiness of a decoded JSON value. -/
def pyTruthy : JVal → Bool
  | JVal.jnull => false
  | JVal.jbool b => b
  | JVal.jnum q => q != 0
  | JVal.jstr s => s != ""
  | JVal.jarr l => !l.isEmpty
  | JVal.jobj l => !l.isEmpty

/-- Loose stand-in for Python `repr` of a float (only its *being some
string without further structure* matters to anything proved here). -/
def numRepr (q : ℚ) : String :=
  if q.den = 1 then toString q.num ++ ".0" else toString q.num ++ "/" ++ toString q.den

/-- Python `str()` of a decoded JSON value.  For strings it is the
identity (the only case the pipeline's theorems depend on); containers
are rendered by a loose stand-in. -/
def pyStr : JVal → String
  | JVal.jnull => "None"
  | JVal.jbool true => "True"
  | JVal.jbool false => "False"
  | JVal.jnum q => numRepr q
  | JVal.jstr s => s
  | JVal.jarr _ => "[...]"
  | JVal.jobj _ => "\x7b...\x7d"

/-- Magnitude part of Python `float(str)`: `digits`, `digits.digits`,
`.digits` or `digits.`, then an optional exponent (handled by
`pyFloatExp`).  `inf`/`nan` and digit underscores are not modelled. -/
def pyFloatExpDigits (l : List Char) (m : ℚ) (sgn : ℤ) : Option ℚ :=
  let ds := l.takeWhile isDigitCh
  if ds.length = 0 ∨ l.drop ds.length ≠ [] then none
  else some (m * (10 : ℚ) ^ (sgn * (digitsToNat ds : ℤ)))

/-- Optional exponent suffix of Python `float(str)`. -/
def pyFloatExp (l : List Char) (m : ℚ) : Option ℚ :=
  match l with
  | [] => some m
  | e :: r =>
    if e = 'e' ∨ e = 'E' then
      match r with
      | '+' :: r2 => pyFloatExpDigits r2 m 1
      | '-' :: r2 => pyFloatExpDigits r2 m (-1)
      | _ => pyFloatExpDigits r m 1
    else none

/-- Unsigned decimal part of Python `float(str)`. -/
def pyFloatMag (l : List Char) : Option ℚ :=
  let ip := l.takeWhile isDigitCh
  match l.drop ip.length with
  | '.' :: r2 =>
    let fp := r2.takeWhile isDigitCh
    if ip.length = 0 ∧ fp.length = 0 then none
    else
      pyFloatExp (r2.drop fp.length)
        ((digitsToNat ip : ℚ) + (digitsToNat fp : ℚ) / (10 : ℚ) ^ fp.length)
  | r1 => if ip.length = 0 then none else pyFloatExp r1 (digitsToNat ip : ℚ)

/-- Python `float(str)`: strip whitespace, optional sign, decimal
magnitude with optional exponent; `none` models `ValueError`. -/
def pyFloatOfString (s : String) : Option ℚ :=
  match stripL s.data with
  | '+' :: r => pyFloatMag r
  | '-' :: r => (pyFloatMag r).map Neg.neg
  | l => pyFloatMag l

/-- Python `float(x)` on the value read from the parsed JSON (`none` is
the absent-key default `None`).  `none` result models the exception
caught by the confidence-normalization `try`. -/
def pyFloat : Option JVal → Option ℚ
  | none => none
  | some (JVal.jnum q) => some q
  | some (JVal.jstr s) => pyFloatOfString s
  | some (JVal.jbool b) => some (if b then 1 else 0)
  | some _ => none

/-! ## `_extract_json_from_text` -/

/-- Index of the last occurrence of `c` (Python `str.rfind`). -/
def rfindIdx (c : Char) (l : List Char) : Option Nat :=
  (l.reverse.findIdx? (fun d => d = c)).map (fun j => l.length - 1 - j)

/-- Strip-ws count helper for the trailing-comma repair. -/
def wsCount (l : List Char) : Nat := (l.takeWhile isPySpace).length

/-- One `re.sub(",\s*<close>", "<close>", _)` pass (fuel-indexed so it
evaluates by structural recursion; every step consumes a character, so
fuel `length` never runs out): leftmost scan; the spliced `<close>` is
not rescanned. -/
def subCommaCloseF (close : Char) : Nat → List Char → List Char
  | 0, l => l
  | _ + 1, [] => []
  | fuel + 1, c :: cs =>
    if c = ',' then
      if (cs.drop (wsCount cs)).head? = some close then
        close :: subCommaCloseF close fuel (cs.drop (wsCount cs + 1))
      else c :: subCommaCloseF close fuel cs
    else c :: subCommaCloseF close fuel cs

/-- One `re.sub(",\s*<close>", "<close>", _)` pass. -/
def subCommaClose (close : Char) (l : List Char) : List Char :=
  subCommaCloseF close l.length l

/-- The single repair pass of `_extract_json_from_text`: single quotes
to double quotes, then strip trailing commas before `}` and before `]`. -/
def repairJson (l : List Char) : List Char :=
  let cleaned := l.map (fun c => if c = Char.ofNat 39 then '"' else c)
  subCommaClose ']' (subCommaClose rbrace cleaned)

/-- `_extract_json_from_text`: `none` input models a non-string
argument; empty/no-brace-pair inputs raise (`Except.error`); otherwise
the span from the first `{` to the last `}` is parsed, with one repair
pass on failure. -/
def extract_json_from_text : Option String → Except Unit JVal
  | none => Except.error ()
  | some s =>
    if s.data = [] then Except.error ()
    else
      let l := s.data
      match l.findIdx? (fun d => d = lbrace), rfindIdx rbrace l with
      | some first, some last =>
        if last < first then Except.error ()
        else
          let json_text := (l.drop first).take (last + 1 - first)
          match jparse json_text with
          | Except.ok v => Except.ok v
          | Except.error _ => jparse (repairJson json_text)
      | some _, none => Except.error ()
      | none, _ => Except.error ()

/-! ## Heuristic classifier, templates, and the two pipelines -/

/-- The fixed ordered productive-keyword list `_PRODUCTIVE_KEYWORDS`. -/
def PRODUCTIVE_KEYWORDS : List String :=
  ["erro", "problema", "solicit", "atualiza", "atualização", "status",
    "não consigo", "não funciona", "falha", "incidente", "reclama", "ajuda", "suporte"]

/-- `heuristics_fallback_classify`: first keyword (in list order) found
in the lowercased text wins. -/
def heuristics_fallback_classify (text : String) : String × ℚ × String :=
  let t := pyLower text
  match PRODUCTIVE_KEYWORDS.find? (fun kw => subL kw.data t.data) with
  | some kw =>
    ("Produtivo", 0.65, "Contém palavra-chave indicativa: \x27" ++ kw ++ "\x27")
  | none => ("Improdutivo", 0.55, "Nenhuma palavra-chave produtiva detectada")

/-- Result record of `classify_email`. -/
structure ClassificationResult where
  category : String
  confidence : ℚ
  summary : String
deriving DecidableEq

/-- The heuristic tuple packaged as a `ClassificationResult` (the shape
`classify_email` returns it in). -/
def heurResult (text : String) : ClassificationResult :=
  let r := heuristics_fallback_classify text
  ⟨r.1, r.2.1, r.2.2⟩

/-- Result record of `generate_response`. -/
structure ResponseResult where
  suggested_response : String
deriving DecidableEq

/-- The request `classify_email` / `generate_response` hand to
`_retry_backoff_call`-wrapped `openai.ChatCompletion.create`: prompt
pair, temperature, `max_tokens`, and the retry budget. -/
structure LlmRequest where
  system : String
  user : String
  temperature : ℚ
  max_tokens : Nat
  retries : Nat
  base_delay : ℚ
deriving DecidableEq

/-- Template `TEMPLATES["Produtivo"]`. -/
def TEMPLATES_Produtivo : String :=
  "Olá,\n\nRecebemos sua solicitação e já estamos verificando. " ++
    "Por favor, confirme os dados necessários (número do processo ou mais detalhes) " ++
    "para que possamos acelerar o atendimento. " ++
    "Retornaremos com uma atualização assim que possível.\n\nAtenciosamente,"

/-- Template `TEMPLATES["Improdutivo"]`. -/
def TEMPLATES_Improdutivo : String :=
  "Olá,\n\nAgradecemos a sua mensagem. Caso precise de suporte ou queira abrir " ++
    "uma solicitação, por favor nos informe os detalhes."

/-- `TEMPLATES` as a keyed lookup (used by the compatibility wrapper). -/
def TEMPLATES (k : String) : Option String :=
  if k = "Produtivo" then some TEMPLATES_Produtivo
  else if k = "Improdutivo" then some TEMPLATES_Improdutivo
  else none

/-- `INSTITUTIONAL_TONE` prompt preamble. -/
def INSTITUTIONAL_TONE : String :=
  "Use um tom institucional: cordial, profissional, objetivo e claro. " ++
    "Evite jargões técnicos quando não solicitados. Não invente prazos ou informações. " ++
    "Se precisar de dados adicionais para prosseguir, peça educadamente por " ++
    "\x27dados de identificação\x27 " ++
    "sem solicitar informações sensíveis (como CPF ou número de cartão) diretamente no e-mail."

/-- `CLASSIFY_PROMPT_INSTRUCTIONS`. -/
def CLASSIFY_PROMPT_INSTRUCTIONS : String :=
  "Classifique o e-mail em exatamente UMA das categorias: \x27Produtivo\x27 ou \x27Improdutivo\x27.\n" ++
    "Forneça também um resumo curto (uma frase) e uma estimativa de confiança entre 0 e 1.\n" ++
    "Responda APENAS em JSON com as chaves: category, confidence, summary.\n" ++
    "category deve ser \x27Produtivo\x27 ou \x27Improdutivo\x27. confidence deve ser um número entre 0.0 e 1.0.\n"

/-- Category normalization of `classify_email` (source lines 192-202):
`capitalize`d canonical values are kept; otherwise lowercase substring
tests (`prod`, then `improd` / `não`); `none` means "still ambiguous",
upon which the caller discards the LLM result. -/
def normalize_category (category : String) : Option String :=
  let cat_norm := pyCapitalize category
  if cat_norm = "Produtivo" ∨ cat_norm = "Improdutivo" then some cat_norm
  else
    let low := pyLower cat_norm
    if subL "prod".data low.data then some "Produtivo"
    else if subL "improd".data low.data || subL "não".data low.data then some "Improdutivo"
    else none

/-- Confidence normalization of `classify_email` (source lines 204-210):
clamp a convertible value to `[0, 1]`; on conversion failure use the
category-dependent default. -/
def normalize_confidence (confidence : Option JVal) (cat_norm : String) : ℚ :=
  match pyFloat confidence with
  | some x => max 0 (min 1 x)
  | none => if cat_norm = "Produtivo" then 0.7 else 0.6

/-- The validation/normalization block of `classify_email` run on the
decoded JSON.  A non-object value models the `AttributeError` that the
surrounding `try` would turn into the heuristic fallback (unreachable
from `_extract_json_from_text`, whose spans start at `{`). -/
def classify_from_parsed (email_text : String) (parsed : JVal) : ClassificationResult :=
  match parsed with
  | JVal.jobj kvs =>
    let category := pyStrip (pyStr ((lookupLast kvs "category").getD (JVal.jstr "")))
    let confidence := lookupLast kvs "confidence"
    let summaryv := (lookupLast kvs "summary").getD (JVal.jstr "")
    match normalize_category category with
    | none => heurResult email_text
    | some cat_norm =>
      let conf := normalize_confidence confidence cat_norm
      let summary := if pyTruthy summaryv then pyStrip (pyStr summaryv) else ""
      ⟨cat_norm, conf, summary⟩
  | _ => heurResult email_text

/-- `classify_email`.  `reply` is the LLM-call oracle: `none` when the
retried call (or reading the response object) raised, `some content`
the returned message content.  The request built from the *anonymized*
text is returned alongside; every failure path falls back to the
heuristic on the *original* `email_text`. -/
def classify_email (reply : Option String) (email_text : String) (max_tokens : Nat)
    (temperature : ℚ) : LlmRequest × ClassificationResult :=
  let text := anonymize_text (some email_text)
  let system :=
    "Você é um assistente que classifica e resume e-mails para triagem em uma empresa financeira. Responda em Português."
  let user := CLASSIFY_PROMPT_INSTRUCTIONS ++ "\nEmail: \x27\x27\x27" ++ text ++
    "\x27\x27\x27\n\nSaída JSON:"
  let req : LlmRequest := ⟨system, user, temperature, max_tokens, 3, 1.0⟩
  match reply with
  | none => (req, heurResult email_text)
  | some content =>
    let text_out := pyStrip content
    match extract_json_from_text (some text_out) with
    | Except.error _ => (req, heurResult email_text)
    | Except.ok parsed => (req, classify_from_parsed email_text parsed)

/-- `generate_response`.  Branches on `category = "Improdutivo"`
(exact match); each branch builds its request and falls back to its
static template when the oracle `reply` is `none` (call raised) or the
reply fails the branch's validation. -/
def generate_response (reply : Option String) (email_text : String) (category : String)
    (summary : Option String) (max_tokens : Nat) (_temperature : ℚ) :
    LlmRequest × ResponseResult :=
  let text := anonymize_text (some email_text)
  if category = "Improdutivo" then
    let prompt := INSTITUTIONAL_TONE ++ "\n\n" ++
      "O e-mail a seguir parece improdutivo. Gere uma resposta curta e cordial em Português.\n\n" ++
      "Email: \x27\x27\x27" ++ text ++ "\x27\x27\x27\n\nResposta:"
    let req : LlmRequest :=
      ⟨"Assistente que gera respostas institucionais em Português.", prompt, 0.3, max_tokens, 2, 0.8⟩
    match reply with
    | none => (req, ⟨TEMPLATES_Improdutivo⟩)
    | some r =>
      let rep := pyStrip r
      if rep.length < 30 then (req, ⟨TEMPLATES_Improdutivo⟩) else (req, ⟨rep⟩)
  else
    let prompt := INSTITUTIONAL_TONE ++ "\n\n" ++
      "O e-mail abaixo foi classificado como \x27Produtivo\x27. Gere uma resposta profissional em Português, " ++
      "objetiva, com próximos passos claros e solicite informações adicionais se necessário.\n\n" ++
      "Resumo do e-mail: \"" ++ summary.getD "" ++ "\"\n\n" ++
      "Email: \x27\x27\x27" ++ text ++ "\x27\x27\x27\n\nResposta:"
    let req : LlmRequest :=
      ⟨"Assistente que gera respostas institucionais e seguras em Português.", prompt, 0.2,
        max_tokens, 3, 1.0⟩
    match reply with
    | none => (req, ⟨TEMPLATES_Produtivo⟩)
    | some r =>
      let rep := pyStrip r
      if rep = "" then (req, ⟨TEMPLATES_Produtivo⟩) else (req, ⟨rep⟩)

/-! ## `_retry_backoff_call`

The loop body is an attempt oracle `f : Nat → Except E A` (attempt `i`
either returns a value or raises `e`).  The model returns the outcome
together with the list of back-off sleeps performed, in order.  The
outcome `Except.error none` is the degenerate `raise None` (a
`TypeError` in Python) reached only when `retries = 0`. -/

/-- Loop of `_retry_backoff_call` from attempt `i` with last-seen
exception `last` and accumulated sleeps `acc` (reversed). -/
def retryGo {E A : Type} (f : Nat → Except E A) (retries : Nat) (base_delay : ℚ) :
    Nat → Option E → List ℚ → Except (Option E) A × List ℚ
  | i, last, acc =>
    if _h : i < retries then
      match f i with
      | Except.ok a => (Except.ok a, acc.reverse)
      | Except.error e =>
        retryGo f retries base_delay (i + 1) (some e) (base_delay * 2 ^ i :: acc)
    else (Except.error last, acc.reverse)
termination_by i _ _ => retries - i
decreasing_by omega

/-- `_retry_backoff_call(func, retries, base_delay)`. -/
def retry_backoff_call {E A : Type} (f : Nat → Except E A) (retries : Nat)
    (base_delay : ℚ) : Except (Option E) A × List ℚ :=
  retryGo f retries base_delay 0 none []

/-! ## `nlp_utils.py` -/

/-- `re.sub(r"\s+", " ", _)`: collapse whitespace runs to single spaces
(fuel-indexed structural recursion; fuel `length` never runs out). -/
def collapseWsF : Nat → List Char → List Char
  | 0, l => l
  | _ + 1, [] => []
  | fuel + 1, c :: cs =>
    if isPySpace c then ' ' :: collapseWsF fuel (cs.dropWhile isPySpace)
    else c :: collapseWsF fuel cs

/-- `re.sub(r"\s+", " ", _)`. -/
def collapseWs (l : List Char) : List Char := collapseWsF l.length l

/-- `clean_text`. -/
def clean_text : Option String → String
  | none => ""
  | some s =>
    let s1 := s.data.map (fun c => if c = '\r' then ' ' else if c = '\n' then ' ' else c)
    pyStrip ⟨collapseWs s1⟩

/-- `preprocess_for_sending`. -/
def preprocess_for_sending (text : Option String) (max_chars : Nat) : String :=
  let t := clean_text text
  if max_chars < t.length then ⟨t.data.take max_chars⟩ ++ "\n\n[...TRUNCADO]" else t

/-- The character class kept by `re.sub(r"[^a-zA-ZÀ-ú ]", " ", _)`:
ASCII letters, the Latin-1 block `À`(U+00C0)-`ú`(U+00FA), and space. -/
def keepLetter (c : Char) : Bool :=
  (65 ≤ c.toNat && c.toNat ≤ 90) || (97 ≤ c.toNat && c.toNat ≤ 122)
    || (0xC0 ≤ c.toNat && c.toNat ≤ 0xFA) || c = ' '

/-- Python `str.split()` (no argument): maximal non-whitespace runs
(fuel-indexed structural recursion; fuel `length` never runs out). -/
def splitWsF : Nat → List Char → List (List Char)
  | 0, _ => []
  | _ + 1, [] => []
  | fuel + 1, c :: cs =>
    if isPySpace c then splitWsF fuel cs
    else
      (c :: cs.takeWhile (fun d => !isPySpace d)) ::
        splitWsF fuel (cs.drop (cs.takeWhile (fun d => !isPySpace d)).length)

/-- Python `str.split()` (no argument). -/
def splitWsL (l : List Char) : List (List Char) := splitWsF l.length l

/-- The fixed stopword set of `extract_keywords`. -/
def stopwords : List String :=
  ["de", "da", "do", "para", "por", "com", "uma", "um", "em", "e", "o", "a", "que",
    "na", "no", "nos", "nas", "pois", "mas", "ou", "se", "onde", "como",
    "tem", "têm", "ter", "ser"]

/-- The `for w in keywords` loop of `extract_keywords`: append unseen
words, and after *each* iteration stop once `top_k ≤ len(out)` (note the
test runs after the append, so one item is produced even when
`top_k = 0`). -/
def kwLoop (top_k : Nat) (seen : List String) (out_len : Nat) : List String → List String
  | [] => []
  | w :: ws =>
    if seen.contains w then
      (if top_k ≤ out_len then [] else kwLoop top_k seen out_len ws)
    else
      w :: (if top_k ≤ out_len + 1 then [] else kwLoop top_k (w :: seen) (out_len + 1) ws)

/-- The word sequence `extract_keywords` iterates over: lower-case,
clean, strip non-letters, split, then drop stopwords and short words
(first-seen order of the input text). -/
def keyword_candidates (text : String) : List String :=
  let t := clean_text (some (pyLower text))
  let words :=
    (splitWsL (t.data.map (fun c => if keepLetter c then c else ' '))).map
      (fun w => (⟨w⟩ : String))
  words.filter (fun w => !(stopwords.contains w) && decide (3 < w.length))

/-- `extract_keywords`. -/
def extract_keywords (text : String) (top_k : Nat) : List String :=
  kwLoop top_k [] 0 (keyword_candidates text)

/-- The characters that can appear in a word of `extract_keywords`:
members of the kept class `[a-zA-ZÀ-ú ]` other than space that survive
`str.lower` — the lower-case ASCII letters and the Latin-1 code points
`ß`(U+00DF)-`ú`(U+00FA) together with `×`(U+00D7). -/
def isKwChar (c : Char) : Bool :=
  (97 ≤ c.toNat && c.toNat ≤ 122) || (0xDF ≤ c.toNat && c.toNat ≤ 0xFA) || c.toNat = 0xD7

/-! ## Supporting lemmas -/

set_option maxRecDepth 16384

lemma retryGo_step_fail {E A : Type} (f : Nat → Except E A) (r : Nat) (b : ℚ) (i : Nat)
    (last : Option E) (acc : List ℚ) (e : E) (hi : i < r) (hf : f i = Except.error e) :
    retryGo f r b i last acc = retryGo f r b (i + 1) (some e) (b * 2 ^ i :: acc) := by
  rw [retryGo]
  simp [hi, hf]

lemma retryGo_step_ok {E A : Type} (f : Nat → Except E A) (r : Nat) (b : ℚ) (i : Nat)
    (last : Option E) (acc : List ℚ) (a : A) (hi : i < r) (hf : f i = Except.ok a) :
    retryGo f r b i last acc = (Except.ok a, acc.reverse) := by
  rw [retryGo]
  simp [hi, hf]

lemma retryGo_done {E A : Type} (f : Nat → Except E A) (r : Nat) (b : ℚ) (i : Nat)
    (last : Option E) (acc : List ℚ) (hi : ¬ i < r) :
    retryGo f r b i last acc = (Except.error last, acc.reverse) := by
  rw [retryGo]
  simp [hi]

lemma retry_run_to {E A : Type} (f : Nat → Except E A) (r : Nat) (b : ℚ) :
    ∀ j, j ≤ r → (∀ i, i < j → ∃ e, f i = Except.error e) →
      ∃ last : Option E,
        retry_backoff_call f r b =
          retryGo f r b j last (((List.range j).map (fun i => b * 2 ^ i)).reverse) ∧
        (0 < j → ∃ e, f (j - 1) = Except.error e ∧ last = some e) := by
  intro j
  induction j with
  | zero =>
    intro _ _
    exact ⟨none, rfl, by omega⟩
  | succ j ih =>
    intro hle hf
    obtain ⟨last, heq, _hlast⟩ := ih (by omega) (fun i hi => hf i (by omega))
    obtain ⟨e, he⟩ := hf j (by omega)
    refine ⟨some e, ?_, ?_⟩
    · rw [heq, retryGo_step_fail f r b j last _ e (by omega) he]
      congr 1
      rw [List.range_succ]
      simp
    · intro _
      exact ⟨e, by simpa using he, rfl⟩

/-! ## The claims -/

/-- Claim C5: `_retry_backoff_call` executes the call up to `retries`
times and returns the first successful result, sleeping
`base_delay * 2 ^ i` after each failed attempt `i`; when all `retries`
attempts fail (`retries ≥ 1`), the last attempt's exception is
re-raised. -/
theorem claim_C5 {E A : Type} (f : Nat → Except E A) (retries : Nat) (b : ℚ) :
    (∀ j a, j < retries → f j = Except.ok a → (∀ i, i < j → ∃ e, f i = Except.error e) →
      retry_backoff_call f retries b =
        (Except.ok a, (List.range j).map (fun i => b * 2 ^ i))) ∧
    (∀ e, 0 < retries → (∀ i, i < retries → ∃ e2, f i = Except.error e2) →
      f (retries - 1) = Except.error e →
      retry_backoff_call f retries b =
        (Except.error (some e), (List.range retries).map (fun i => b * 2 ^ i))) := by
  constructor
  · intro j a hj hok hfail
    obtain ⟨last, heq, _⟩ := retry_run_to f retries b j (by omega) hfail
    rw [heq, retryGo_step_ok f retries b j last _ a hj hok]
    simp
  · intro e hr hfail hlast
    obtain ⟨last, heq, hchar⟩ := retry_run_to f retries b retries (by omega) hfail
    obtain ⟨e2, he2, hl2⟩ := hchar hr
    rw [he2] at hlast
    cases hlast
    rw [heq, retryGo_done f retries b retries last _ (by omega), hl2]
    simp

/-- Claim C5 witness: with 3 attempts whose second succeeds, the call
returns that success after one back-off sleep of `2 * 2 ^ 0`; with 2
attempts that both fail, the second failure is re-raised after sleeps
`[1, 2]`. -/
theorem claim_C5_witness :
    retry_backoff_call (fun i => if i = 1 then Except.ok 5 else Except.error "boom") 3 2 =
      (Except.ok 5, [2]) ∧
    retry_backoff_call (fun _ => (Except.error "down" : Except String Nat)) 2 1 =
      (Except.error (some "down"), [1, 2]) := by
  constructor
  · have h := (claim_C5 (fun i => if i = 1 then Except.ok 5 else Except.error "boom") 3 2).1
      1 5 (by omega) (by simp)
      (fun i hi => ⟨"boom", by interval_cases i <;> simp⟩)
    simpa [List.range_succ, List.range_zero] using h
  · have h := (claim_C5 (fun _ => (Except.error "down" : Except String Nat)) 2 1).2
      "down" (by omega) (fun i _ => ⟨"down", rfl⟩) rfl
    simpa [List.range_succ, List.range_zero] using h

/-- Claim C10: any category other than the exact string `"Improdutivo"`
(including `"improdutivo"`) takes the Productive branch of
`generate_response`: the request uses the productive prompt pair with
retry budget 3, base delay 1.0 (and temperature 0.2), and on failure the
static `Produtivo` template is returned, never the `Improdutivo` one. -/
theorem claim_C10 (reply : Option String) (t cat : String) (s : Option String) (mt : Nat)
    (temp : ℚ) (h : cat ≠ "Improdutivo") :
    (generate_response reply t cat s mt temp).1.system =
        "Assistente que gera respostas institucionais e seguras em Português." ∧
    (generate_response reply t cat s mt temp).1.retries = 3 ∧
    (generate_response reply t cat s mt temp).1.base_delay = 1 ∧
    (generate_response reply t cat s mt temp).1.temperature = 0.2 ∧
    (generate_response none t cat s mt temp).2 = ⟨TEMPLATES_Produtivo⟩ := by
  cases reply with
  | none =>
    simp [generate_response, if_neg h]
    norm_num
  | some r =>
    by_cases hr : pyStrip r = ""
    · simp [generate_response, if_neg h, hr]
      norm_num
    · simp [generate_response, if_neg h, hr]
      norm_num

/-- Claim C10 witness: the lowercase category `"improdutivo"` takes the
Productive branch. -/
theorem claim_C10_witness :
    (generate_response none "" "improdutivo" none 512 0).1.retries = 3 ∧
    (generate_response none "" "improdutivo" none 512 0).2 = ⟨TEMPLATES_Produtivo⟩ := by
  have h := claim_C10 none "" "improdutivo" none 512 0 (by decide)
  exact ⟨h.2.1, h.2.2.2.2⟩

lemma gen_improd_none (t : String) (s : Option String) (mt : Nat) (temp : ℚ) :
    (generate_response none t "Improdutivo" s mt temp).2 = ⟨TEMPLATES_Improdutivo⟩ := by
  simp [generate_response]

lemma gen_improd_some (r t : String) (s : Option String) (mt : Nat) (temp : ℚ) :
    (generate_response (some r) t "Improdutivo" s mt temp).2 =
      (if (pyStrip r).length < 30 then ⟨TEMPLATES_Improdutivo⟩ else ⟨pyStrip r⟩) := by
  by_cases hlen : (pyStrip r).length < 30
  · simp [generate_response, hlen]
  · simp [generate_response, hlen]

lemma gen_prod_none (t cat : String) (s : Option String) (mt : Nat) (temp : ℚ)
    (h : cat ≠ "Improdutivo") :
    (generate_response none t cat s mt temp).2 = ⟨TEMPLATES_Produtivo⟩ := by
  simp [generate_response, if_neg h]

lemma gen_prod_some (r t cat : String) (s : Option String) (mt : Nat) (temp : ℚ)
    (h : cat ≠ "Improdutivo") :
    (generate_response (some r) t cat s mt temp).2 =
      (if pyStrip r = "" then ⟨TEMPLATES_Produtivo⟩ else ⟨pyStrip r⟩) := by
  by_cases hr : pyStrip r = ""
  · simp [generate_response, if_neg h, hr]
  · simp [generate_response, if_neg h, hr]

/-- Claim C3 counterexample: on the Productive branch, the non-empty
LLM reply `"ok"` is returned as-is — an LLM-sourced suggested response
of length 2, under the claimed 30-character minimum. -/
theorem claim_C3_counterexample :
    (generate_response (some "ok") "" "Produtivo" none 512 0).2.suggested_response = "ok" ∧
    (generate_response (some "ok") "" "Produtivo" none 512 0).2.suggested_response ≠
      TEMPLATES_Produtivo ∧
    (generate_response (some "ok") "" "Produtivo" none 512 0).2.suggested_response ≠
      TEMPLATES_Improdutivo ∧
    (generate_response (some "ok") "" "Produtivo" none 512 0).2.suggested_response.length < 30 := by
  refine ⟨?_, ?_, ?_, ?_⟩ <;> decide

/-- Claim C3 (amended): `generate_response` is total and always returns
a non-empty suggested response; on the Unproductive branch every
result — template or LLM-sourced — is at least 30 characters, a model
reply stripping to fewer than 30 characters being replaced by the
static `Improdutivo` template; on the Productive branch only emptiness
is rejected (an LLM reply may be returned with fewer than 30
characters), an empty stripped reply or a failed call yielding the
static `Produtivo` template. -/
theorem claim_C3 (reply : Option String) (t cat : String) (s : Option String) (mt : Nat)
    (temp : ℚ) :
    (generate_response reply t cat s mt temp).2.suggested_response ≠ "" ∧
    (cat = "Improdutivo" →
      30 ≤ (generate_response reply t cat s mt temp).2.suggested_response.length) ∧
    (∀ r, reply = some r → cat = "Improdutivo" → (pyStrip r).length < 30 →
      (generate_response reply t cat s mt temp).2 = ⟨TEMPLATES_Improdutivo⟩) ∧
    (∀ r, reply = some r → cat ≠ "Improdutivo" → pyStrip r = "" →
      (generate_response reply t cat s mt temp).2 = ⟨TEMPLATES_Produtivo⟩) ∧
    (reply = none → (generate_response reply t cat s mt temp).2.suggested_response =
      (if cat = "Improdutivo" then TEMPLATES_Improdutivo else TEMPLATES_Produtivo)) := by
  have htp : TEMPLATES_Produtivo ≠ "" := by decide
  have hti : TEMPLATES_Improdutivo ≠ "" := by decide
  have htil : 30 ≤ TEMPLATES_Improdutivo.length := by decide
  by_cases hc : cat = "Improdutivo"
  · subst hc
    cases reply with
    | none =>
      rw [gen_improd_none]
      exact ⟨hti, fun _ => htil, by simp, by simp, fun _ => by simp⟩
    | some r =>
      rw [gen_improd_some]
      by_cases hlen : (pyStrip r).length < 30
      · rw [if_pos hlen]
        exact ⟨hti, fun _ => htil, fun r2 _ _ _ => rfl, by simp, by simp⟩
      · rw [if_neg hlen]
        dsimp only
        refine ⟨?_, fun _ => by omega, fun r2 hr2 _ h30 => ?_, by simp, by simp⟩
        · intro hemp
          rw [hemp] at hlen
          exact hlen (by decide)
        · cases hr2
          exact absurd h30 hlen
  · cases reply with
    | none =>
      rw [gen_prod_none _ _ _ _ _ hc]
      exact ⟨htp, fun h => absurd h hc, by simp, by simp, fun _ => by rw [if_neg hc]⟩
    | some r =>
      rw [gen_prod_some _ _ _ _ _ _ hc]
      by_cases hr : pyStrip r = ""
      · rw [if_pos hr]
        exact ⟨htp, fun h => absurd h hc, fun r2 hr2 h2 => absurd h2 hc,
          fun r2 _ _ _ => rfl, by simp⟩
      · rw [if_neg hr]
        dsimp only
        exact ⟨hr, fun h => absurd h hc, fun r2 hr2 h2 => absurd h2 hc,
          fun r2 hr2 _ hs => (by cases hr2; exact absurd hs hr), by simp⟩

/-- Claim C3 witness: a short reply on the Unproductive branch is
replaced by the static `Improdutivo` template. -/
theorem claim_C3_witness :
    (generate_response (some "oi") "" "Improdutivo" none 512 0).2 =
      ⟨TEMPLATES_Improdutivo⟩ := by
  have h := claim_C3 (some "oi") "" "Improdutivo" none 512 0
  exact h.2.2.1 "oi" rfl rfl (by decide)

lemma findIdx_none_of_not_mem (l : List Char) (c : Char) (h : c ∉ l) :
    l.findIdx? (fun d => d = c) = none := by
  rw [List.findIdx?_eq_none_iff]
  intro x hx
  simp only [decide_eq_false_iff_not]
  intro he
  exact h (he ▸ hx)

/-- Claim C4: `_extract_json_from_text` takes the inclusive span from
the first `{` to the last `}`, parses it as JSON, and on parse failure
applies exactly one repair pass (single quotes to double quotes, strip
trailing commas before `}`/`]`) before reparsing; concretely,
`'prefix {"a":1,} suffix'` yields `{a: 1}`; and it raises for empty,
non-string, and brace-pair-free inputs such as `"no braces here"`. -/
theorem claim_C4 :
    extract_json_from_text (some "prefix \x7b\"a\":1,\x7d suffix") =
      Except.ok (JVal.jobj [("a", JVal.jnum 1)]) ∧
    extract_json_from_text none = Except.error () ∧
    extract_json_from_text (some "") = Except.error () ∧
    extract_json_from_text (some "no braces here") = Except.error () ∧
    (∀ s : String, lbrace ∉ s.data → extract_json_from_text (some s) = Except.error ()) ∧
    (∀ s : String, rbrace ∉ s.data → extract_json_from_text (some s) = Except.error ()) ∧
    (∀ (s : String) (first last : Nat),
      s.data.findIdx? (fun d => d = lbrace) = some first →
      rfindIdx rbrace s.data = some last → first ≤ last →
      extract_json_from_text (some s) =
        (match jparse ((s.data.drop first).take (last + 1 - first)) with
         | Except.ok v => Except.ok v
         | Except.error _ => jparse (repairJson ((s.data.drop first).take (last + 1 - first))))) := by
  refine ⟨by with_unfolding_all rfl, rfl, rfl, by with_unfolding_all rfl, ?_, ?_, ?_⟩
  · intro s h
    by_cases hs : s.data = []
    · simp [extract_json_from_text, hs]
    · simp only [extract_json_from_text, if_neg hs, findIdx_none_of_not_mem s.data lbrace h]
  · intro s h
    by_cases hs : s.data = []
    · simp [extract_json_from_text, hs]
    · have hr : rfindIdx rbrace s.data = none := by
        have : rbrace ∉ s.data.reverse := by simpa using h
        simp [rfindIdx, findIdx_none_of_not_mem _ _ this]
      simp only [extract_json_from_text, if_neg hs, hr]
      cases hfi : s.data.findIdx? (fun d => d = lbrace) <;> rfl
  · intro s first last hfi hla hle
    have hs : s.data ≠ [] := by
      intro he
      rw [he] at hfi
      simp [List.findIdx?] at hfi
    simp only [extract_json_from_text, if_neg hs, hfi, hla, if_neg (by omega : ¬ last < first)]

/-- Claim C4 witness: an input without `{` raises. -/
theorem claim_C4_witness :
    extract_json_from_text (some "xyz") = Except.error () :=
  claim_C4.2.2.2.2.1 "xyz" (by decide)

/-- Claim C6: in `classify_email`'s confidence normalization, a value
convertible to float is clamped to `[0, 1]` (the string `"1.5"` yields
`1.0`), and a non-convertible value is replaced by the
category-dependent default `0.7` (Produtivo) / `0.6` (Improdutivo). -/
theorem claim_C6 :
    (∀ v cat x, pyFloat v = some x → normalize_confidence v cat = max 0 (min 1 x)) ∧
    (∀ v cat, pyFloat v = none →
      normalize_confidence v cat = (if cat = "Produtivo" then 0.7 else 0.6)) ∧
    pyFloatOfString "1.5" = some (3 / 2) ∧
    (classify_email
        (some "\x7b\"category\": \"Produtivo\", \"confidence\": \"1.5\", \"summary\": \"s\"\x7d")
        "" 256 0).2.confidence = 1 ∧
    (classify_email
        (some "\x7b\"category\": \"Produtivo\", \"confidence\": \"abc\", \"summary\": \"s\"\x7d")
        "" 256 0).2.confidence = 0.7 ∧
    (classify_email
        (some "\x7b\"category\": \"Improdutivo\", \"confidence\": \"abc\", \"summary\": \"s\"\x7d")
        "" 256 0).2.confidence = 0.6 := by
  refine ⟨?_, ?_, by with_unfolding_all rfl, by with_unfolding_all rfl,
    by with_unfolding_all rfl, by with_unfolding_all rfl⟩
  · intro v cat x h
    simp [normalize_confidence, h]
  · intro v cat h
    simp [normalize_confidence, h]

/-- Claim C6 witness: the clamp branch applied to the parsed string
`"1.5"`, and the default branch applied to `null`. -/
theorem claim_C6_witness :
    normalize_confidence (some (JVal.jstr "1.5")) "Produtivo" = max 0 (min 1 (3 / 2)) ∧
    normalize_confidence (some JVal.jnull) "Improdutivo" = 0.6 := by
  constructor
  · exact claim_C6.1 (some (JVal.jstr "1.5")) "Produtivo" (3 / 2)
      (by with_unfolding_all rfl)
  · exact claim_C6.2.1 (some JVal.jnull) "Improdutivo" rfl

/-- Claim C7: category normalization keeps a raw category whose
`capitalize` (after the strip at extraction) is canonical — so the raw
string `"PRODUTIVO "` yields `Produtivo` with the LLM's own confidence
and summary, not the heuristic's; otherwise the lowercased value is
tested for the substrings `prod` (→ `Produtivo`, tested first) and then
`improd` / `não` (→ `Improdutivo`); only when all tests fail is the LLM
result discarded for the heuristic on the original text. -/
theorem claim_C7 :
    (classify_email
        (some "\x7b\"category\": \"PRODUTIVO \", \"confidence\": 0.9, \"summary\": \"ok\"\x7d")
        "bom dia" 256 0).2 = ⟨"Produtivo", 0.9, "ok"⟩ ∧
    (heurResult "bom dia").category = "Improdutivo" ∧
    (∀ raw, pyCapitalize raw = "Produtivo" ∨ pyCapitalize raw = "Improdutivo" →
      normalize_category raw = some (pyCapitalize raw)) ∧
    (∀ raw, ¬(pyCapitalize raw = "Produtivo" ∨ pyCapitalize raw = "Improdutivo") →
      subL "prod".data (pyLower (pyCapitalize raw)).data = true →
      normalize_category raw = some "Produtivo") ∧
    (∀ raw, ¬(pyCapitalize raw = "Produtivo" ∨ pyCapitalize raw = "Improdutivo") →
      subL "prod".data (pyLower (pyCapitalize raw)).data = false →
      (subL "improd".data (pyLower (pyCapitalize raw)).data ||
        subL "não".data (pyLower (pyCapitalize raw)).data) = true →
      normalize_category raw = some "Improdutivo") ∧
    (∀ t kvs,
      normalize_category
          (pyStrip (pyStr ((lookupLast kvs "category").getD (JVal.jstr "")))) = none →
      classify_from_parsed t (JVal.jobj kvs) = heurResult t) ∧
    (∀ t kvs c,
      normalize_category
          (pyStrip (pyStr ((lookupLast kvs "category").getD (JVal.jstr "")))) = some c →
      classify_from_parsed t (JVal.jobj kvs) =
        ⟨c, normalize_confidence (lookupLast kvs "confidence") c,
          if pyTruthy ((lookupLast kvs "summary").getD (JVal.jstr "")) then
            pyStrip (pyStr ((lookupLast kvs "summary").getD (JVal.jstr "")))
          else ""⟩) := by
  refine ⟨by with_unfolding_all rfl, by with_unfolding_all rfl, ?_, ?_, ?_, ?_, ?_⟩
  · intro raw h
    simp [normalize_category, h]
  · intro raw hn hp
    simp [normalize_category, hn, hp]
  · intro raw hn hp hi
    rcases Bool.or_eq_true_iff.mp hi with h2 | h2 <;>
      simp [normalize_category, hn, hp, h2]
  · intro t kvs h
    simp [classify_from_parsed, h]
  · intro t kvs c h
    simp [classify_from_parsed, h]

/-- Claim C7 witness: the substring branch maps `"muito produtivo"`
to `Produtivo` and the ambiguous branch of the parsed-object
normalization falls back to the heuristic. -/
theorem claim_C7_witness :
    normalize_category "muito produtivo" = some "Produtivo" ∧
    classify_from_parsed "bom dia" (JVal.jobj [("category", JVal.jstr "???")]) =
      heurResult "bom dia" := by
  constructor
  · exact claim_C7.2.2.2.1 "muito produtivo" (by with_unfolding_all decide)
      (by with_unfolding_all rfl)
  · exact claim_C7.2.2.2.2.2.1 "bom dia" [("category", JVal.jstr "???")]
      (by with_unfolding_all rfl)

lemma heur_bounds (t : String) :
    ((heurResult t).category = "Produtivo" ∨ (heurResult t).category = "Improdutivo") ∧
    0 ≤ (heurResult t).confidence ∧ (heurResult t).confidence ≤ 1 := by
  cases h : PRODUCTIVE_KEYWORDS.find? (fun k2 => subL k2.data (pyLower t).data) with
  | none =>
    refine ⟨Or.inr ?_, ?_, ?_⟩ <;> simp [heurResult, heuristics_fallback_classify, h] <;>
      norm_num
  | some kw =>
    refine ⟨Or.inl ?_, ?_, ?_⟩ <;> simp [heurResult, heuristics_fallback_classify, h] <;>
      norm_num

lemma normalize_category_canonical (raw c : String) (h : normalize_category raw = some c) :
    c = "Produtivo" ∨ c = "Improdutivo" := by
  unfold normalize_category at h
  dsimp only at h
  split_ifs at h with h1 h2 h3
  · rcases h1 with h1 | h1
    · left; rw [← Option.some_inj.mp h, h1]
    · right; rw [← Option.some_inj.mp h, h1]
  · left; exact (Option.some_inj.mp h).symm
  · right; exact (Option.some_inj.mp h).symm

lemma normalize_confidence_bounds (v : Option JVal) (cat : String) :
    0 ≤ normalize_confidence v cat ∧ normalize_confidence v cat ≤ 1 := by
  unfold normalize_confidence
  cases hf : pyFloat v with
  | some x =>
    constructor
    · exact le_max_left 0 (min 1 x)
    · exact max_le (by norm_num) (min_le_left 1 x)
  | none =>
    by_cases hc : cat = "Produtivo" <;> simp [hc] <;> norm_num

lemma classify_from_parsed_shape (t : String) (parsed : JVal) :
    classify_from_parsed t parsed = heurResult t ∨
      ∃ c v s2, (c = "Produtivo" ∨ c = "Improdutivo") ∧
        classify_from_parsed t parsed = ⟨c, normalize_confidence v c, s2⟩ := by
  cases parsed with
  | jobj kvs =>
    cases h : normalize_category
        (pyStrip (pyStr ((lookupLast kvs "category").getD (JVal.jstr "")))) with
    | none => left; simp [classify_from_parsed, h]
    | some c =>
      right
      refine ⟨c, lookupLast kvs "confidence",
        (if pyTruthy ((lookupLast kvs "summary").getD (JVal.jstr "")) then
          pyStrip (pyStr ((lookupLast kvs "summary").getD (JVal.jstr ""))) else ""),
        normalize_category_canonical _ _ h, ?_⟩
      simp [classify_from_parsed, h]
  | jnull => left; rfl
  | jbool b => left; rfl
  | jnum q => left; rfl
  | jstr s2 => left; rfl
  | jarr l => left; rfl

/-- Claim C1: `classify_email` never raises — when the LLM call raises
(oracle `none`) or JSON extraction fails, it returns the heuristic
classification of the original (non-anonymized) text: `Produtivo` with
confidence `0.65` and a summary naming the first matched keyword when
one occurs in the lowercased text, else `Improdutivo` with confidence
`0.55` and the fixed summary. -/
theorem claim_C1 :
    (∀ t mt temp, (classify_email none t mt temp).2 = heurResult t) ∧
    (∀ t content mt temp,
      extract_json_from_text (some (pyStrip content)) = Except.error () →
      (classify_email (some content) t mt temp).2 = heurResult t) ∧
    (∀ t kw, PRODUCTIVE_KEYWORDS.find? (fun k2 => subL k2.data (pyLower t).data) = some kw →
      heurResult t =
        ⟨"Produtivo", 0.65, "Contém palavra-chave indicativa: \x27" ++ kw ++ "\x27"⟩) ∧
    (∀ t, PRODUCTIVE_KEYWORDS.find? (fun k2 => subL k2.data (pyLower t).data) = none →
      heurResult t = ⟨"Improdutivo", 0.55, "Nenhuma palavra-chave produtiva detectada"⟩) := by
  refine ⟨?_, ?_, ?_, ?_⟩
  · intro t mt temp
    simp [classify_email]
  · intro t content mt temp h
    simp [classify_email, h]
  · intro t kw h
    simp [heurResult, heuristics_fallback_classify, h]
  · intro t h
    simp [heurResult, heuristics_fallback_classify, h]

/-- Claim C1 witness: a reply with no JSON object falls back to the
heuristic on the original text, which here flags the keyword `erro`. -/
theorem claim_C1_witness :
    (classify_email (some "sem json aqui") "tenho um erro" 256 0).2 =
      heurResult "tenho um erro" ∧
    heurResult "tenho um erro" =
      ⟨"Produtivo", 0.65, "Contém palavra-chave indicativa: \x27erro\x27"⟩ := by
  constructor
  · exact claim_C1.2.1 "tenho um erro" "sem json aqui" 256 0 (by with_unfolding_all rfl)
  · exact claim_C1.2.2.1 "tenho um erro" "erro" (by with_unfolding_all rfl)

/-- Claim C2: every result of `classify_email` — for every input and
every possible LLM reply — has category exactly one of the two
canonical strings and confidence within `[0, 1]`. -/
theorem claim_C2 (reply : Option String) (t : String) (mt : Nat) (temp : ℚ) :
    ((classify_email reply t mt temp).2.category = "Produtivo" ∨
      (classify_email reply t mt temp).2.category = "Improdutivo") ∧
    0 ≤ (classify_email reply t mt temp).2.confidence ∧
    (classify_email reply t mt temp).2.confidence ≤ 1 := by
  cases reply with
  | none =>
    simpa [classify_email] using heur_bounds t
  | some content =>
    cases hex : extract_json_from_text (some (pyStrip content)) with
    | error e =>
      simpa [classify_email, hex] using heur_bounds t
    | ok parsed =>
      have hred : (classify_email (some content) t mt temp).2 =
          classify_from_parsed t parsed := by
        simp [classify_email, hex]
      rw [hred]
      rcases classify_from_parsed_shape t parsed with h | ⟨c, v, s2, hc, h⟩
      · rw [h]; exact heur_bounds t
      · rw [h]
        exact ⟨hc, (normalize_confidence_bounds v c).1, (normalize_confidence_bounds v c).2⟩

lemma kwLoop_sublist (k : Nat) :
    ∀ (l seen : List String) (n : Nat), List.Sublist (kwLoop k seen n l) l := by
  intro l
  induction l with
  | nil => intro seen n; simp [kwLoop]
  | cons w ws ih =>
    intro seen n
    unfold kwLoop
    split
    · split
      · exact List.nil_sublist _
      · exact (ih seen n).cons w
    · split
      · exact (List.nil_sublist ws).cons₂ w
      · exact (ih (w :: seen) (n + 1)).cons₂ w

lemma kwLoop_not_seen (k : Nat) :
    ∀ (l seen : List String) (n : Nat) (w : String),
      w ∈ kwLoop k seen n l → seen.contains w = false := by
  intro l
  induction l with
  | nil => intro seen n w hw; simp [kwLoop] at hw
  | cons w2 ws ih =>
    intro seen n w hw
    unfold kwLoop at hw
    split at hw
    · split at hw
      · cases hw
      · exact ih seen n w hw
    · next hc =>
      rcases List.mem_cons.mp hw with h | h
      · subst h
        simp only [Bool.not_eq_true] at hc
        exact hc
      · split at h
        · cases h
        · have h3 := ih (w2 :: seen) (n + 1) w h
          simp only [List.contains_cons, Bool.or_eq_false_iff] at h3
          exact h3.2

lemma kwLoop_nodup (k : Nat) :
    ∀ (l seen : List String) (n : Nat), (kwLoop k seen n l).Nodup := by
  intro l
  induction l with
  | nil => intro seen n; simp [kwLoop]
  | cons w ws ih =>
    intro seen n
    unfold kwLoop
    split
    · split
      · exact List.nodup_nil
      · exact ih seen n
    · refine List.nodup_cons.mpr ⟨?_, ?_⟩
      · intro hmem
        have h2 : w ∈ kwLoop k (w :: seen) (n + 1) ws := by
          split at hmem
          · cases hmem
          · exact hmem
        have h3 := kwLoop_not_seen k ws (w :: seen) (n + 1) w h2
        simp [List.contains_cons] at h3
      · split
        · exact List.nodup_nil
        · exact ih (w :: seen) (n + 1)

lemma kwLoop_length (k : Nat) :
    ∀ (l seen : List String) (n : Nat), (kwLoop k seen n l).length ≤ max 1 (k - n) := by
  intro l
  induction l with
  | nil =>
    intro seen n
    simp only [kwLoop, List.length_nil]
    exact Nat.zero_le _
  | cons w ws ih =>
    intro seen n
    unfold kwLoop
    split
    · split
      · simp only [List.length_nil]
        exact Nat.zero_le _
      · exact ih seen n
    · split
      · simp only [List.length_cons, List.length_nil]
        exact Nat.le_max_left _ _
      · next hgt =>
        have h2 := ih (w :: seen) (n + 1)
        have h3 : max 1 (k - (n + 1)) = k - (n + 1) :=
          Nat.max_eq_right (by omega)
        rw [h3] at h2
        have h4 : max 1 (k - n) = k - n := Nat.max_eq_right (by omega)
        rw [h4]
        simp only [List.length_cons]
        omega

lemma char_toNat_ofNat (n : Nat) (h : n < 55296) : (Char.ofNat n).toNat = n := by
  simp only [Char.ofNat, Nat.isValidChar, Char.toNat, Char.ofNatAux]
  rw [dif_pos (Or.inl h)]
  simp [UInt32.toNat, BitVec.toNat_ofNatLt]

lemma lowChar_not_upper (y : Char) :
    ¬(65 ≤ (lowChar y).toNat ∧ (lowChar y).toNat ≤ 90) ∧
    ¬(0xC0 ≤ (lowChar y).toNat ∧ (lowChar y).toNat ≤ 0xDE ∧ (lowChar y).toNat ≠ 0xD7) := by
  unfold lowChar
  split_ifs with h1 h2
  · rw [char_toNat_ofNat _ (by omega)]; omega
  · rw [char_toNat_ofNat _ (by omega)]; omega
  · exact ⟨h1, h2⟩

lemma collapseWsF_mem :
    ∀ (fuel : Nat) (l : List Char) (x : Char), x ∈ collapseWsF fuel l → x = ' ' ∨ x ∈ l := by
  intro fuel
  induction fuel with
  | zero => intro l x hx; exact Or.inr hx
  | succ f ih =>
    intro l x hx
    cases l with
    | nil => simp [collapseWsF] at hx
    | cons c cs =>
      unfold collapseWsF at hx
      split at hx
      · rcases List.mem_cons.mp hx with h | h
        · exact Or.inl h
        · rcases ih _ x h with h2 | h2
          · exact Or.inl h2
          · exact Or.inr (List.mem_cons_of_mem c
              (((List.dropWhile_suffix isPySpace).sublist).subset h2))
      · rcases List.mem_cons.mp hx with h | h
        · exact Or.inr (h ▸ List.mem_cons_self c cs)
        · rcases ih _ x h with h2 | h2
          · exact Or.inl h2
          · exact Or.inr (List.mem_cons_of_mem c h2)

lemma stripL_mem (l : List Char) (x : Char) (hx : x ∈ stripL l) : x ∈ l := by
  unfold stripL at hx
  rw [List.mem_reverse] at hx
  have h1 := ((List.dropWhile_suffix isPySpace).sublist).subset hx
  rw [List.mem_reverse] at h1
  exact ((List.dropWhile_suffix isPySpace).sublist).subset h1

lemma clean_text_mem (s : String) (x : Char) (hx : x ∈ (clean_text (some s)).data) :
    x = ' ' ∨ x ∈ s.data := by
  unfold clean_text pyStrip at hx
  simp only at hx
  have h1 := stripL_mem _ _ hx
  unfold collapseWs at h1
  rcases collapseWsF_mem _ _ _ h1 with h2 | h2
  · exact Or.inl h2
  · rcases List.mem_map.mp h2 with ⟨y, hy, hxy⟩
    by_cases hr : y = '\r'
    · left; rw [← hxy, hr]; rfl
    · by_cases hn : y = '\n'
      · left; rw [← hxy]; simp [hr, hn]
      · right; rw [← hxy]; simp only [hr, hn, if_false]; exact hy

lemma splitWsF_chars (P : Char → Prop) :
    ∀ (fuel : Nat) (l : List Char), (∀ x ∈ l, P x) →
      ∀ w ∈ splitWsF fuel l, ∀ c ∈ w, P c ∧ ¬(isPySpace c = true) := by
  intro fuel
  induction fuel with
  | zero => intro l _ w hw; simp [splitWsF] at hw
  | succ f ih =>
    intro l hP w hw c hc
    cases l with
    | nil => simp [splitWsF] at hw
    | cons a cs =>
      unfold splitWsF at hw
      split at hw
      · exact ih cs (fun x hx => hP x (List.mem_cons_of_mem a hx)) w hw c hc
      · next ha =>
        rcases List.mem_cons.mp hw with h | h
        · subst h
          rcases List.mem_cons.mp hc with h2 | h2
          · subst h2; exact ⟨hP c (List.mem_cons_self c cs), ha⟩
          · refine ⟨hP c (List.mem_cons_of_mem a
              ((List.takeWhile_sublist _).subset h2)), ?_⟩
            have h3 := List.mem_takeWhile_imp h2
            simpa using h3
        · exact ih _ (fun x hx => hP x (List.mem_cons_of_mem a
            ((List.drop_sublist _ _).subset hx))) w h c hc

lemma kwChar_arith (c : Char) (h1 : keepLetter c = true)
    (h2 : ¬(65 ≤ c.toNat ∧ c.toNat ≤ 90))
    (h3 : ¬(0xC0 ≤ c.toNat ∧ c.toNat ≤ 0xDE ∧ c.toNat ≠ 0xD7))
    (h4 : ¬(isPySpace c = true)) : isKwChar c = true := by
  simp only [keepLetter, Bool.or_eq_true, Bool.and_eq_true, decide_eq_true_eq] at h1
  simp only [isKwChar, Bool.or_eq_true, Bool.and_eq_true, decide_eq_true_eq]
  rcases h1 with ((h | h) | h) | h
  · omega
  · omega
  · omega
  · exact absurd (by simp [h, isPySpace]) h4

lemma keyword_candidates_chars (text : String) :
    ∀ w ∈ keyword_candidates text, ∀ c ∈ w.data, isKwChar c = true := by
  intro w hw c hc
  unfold keyword_candidates at hw
  have hw2 := (List.mem_filter.mp hw).1
  rcases List.mem_map.mp hw2 with ⟨wl, hwl, hmk⟩
  subst hmk
  have key := splitWsF_chars
    (fun x => x = ' ' ∨ (keepLetter x = true ∧ ¬(65 ≤ x.toNat ∧ x.toNat ≤ 90) ∧
      ¬(0xC0 ≤ x.toNat ∧ x.toNat ≤ 0xDE ∧ x.toNat ≠ 0xD7)))
    ((clean_text (some (pyLower text))).data.map
      (fun c => if keepLetter c then c else ' ')).length
    ((clean_text (some (pyLower text))).data.map
      (fun c => if keepLetter c then c else ' '))
    ?_ wl hwl c hc
  · rcases key with ⟨hP, hns⟩
    rcases hP with h | ⟨hk, h2, h3⟩
    · exact absurd (by simp [h, isPySpace]) hns
    · exact kwChar_arith c hk h2 h3 hns
  · intro x hx
    rcases List.mem_map.mp hx with ⟨y, hy, hfy⟩
    by_cases hk : keepLetter y = true
    · rw [if_pos hk] at hfy
      subst hfy
      rcases clean_text_mem _ _ hy with h' | h'
      · exact Or.inl h'
      · have h'' : y ∈ text.data.map lowChar := h'
        rcases List.mem_map.mp h'' with ⟨z, _, hlz⟩
        subst hlz
        exact Or.inr ⟨hk, (lowChar_not_upper z).1, (lowChar_not_upper z).2⟩
    · rw [if_neg hk] at hfy
      exact Or.inl hfy.symm

/-- Claim C9 counterexample: with `topK = 0` the loop still returns one
keyword (the break fires only after the first append), so the output
length exceeds `topK`; and the returned word `a××××` contains the
multiplication sign `×` (U+00D7), kept by the `[^a-zA-ZÀ-ú ]` filter
although it is not a letter (it is not even a word character in this
development's model of letters, `isWordCh`). -/
theorem claim_C9_counterexample :
    extract_keywords "problema" 0 = ["problema"] ∧
    ¬((extract_keywords "problema" 0).length ≤ 0) ∧
    "a××××" ∈ extract_keywords "tenho a×××× aqui" 10 ∧
    (Char.ofNat 0xD7) ∈ "a××××".data ∧ isWordCh (Char.ofNat 0xD7) = false := by
  refine ⟨by decide, by decide, by decide, by decide, by decide⟩

/-- Claim C9 (amended): every word `extract_keywords` returns is free of
stopwords, longer than 3 characters, and consists only of characters
kept by the letter filter after lower-casing (lower-case ASCII letters,
`ß`-`ú`, and the sign `×`); the output has no duplicates, is a
subsequence of the text's candidate words in first-seen order, and has
length at most `max 1 topK` — at most `topK` for `topK ≥ 1`, but one
item can be returned when `topK = 0`. -/
theorem claim_C9 (text : String) (top_k : Nat) :
    (∀ w ∈ extract_keywords text top_k,
      stopwords.contains w = false ∧ 3 < w.length ∧ ∀ c ∈ w.data, isKwChar c = true) ∧
    (extract_keywords text top_k).Nodup ∧
    List.Sublist (extract_keywords text top_k) (keyword_candidates text) ∧
    (extract_keywords text top_k).length ≤ max 1 top_k := by
  refine ⟨?_, ?_, ?_, ?_⟩
  · intro w hw
    have hcand : w ∈ keyword_candidates text :=
      (kwLoop_sublist top_k (keyword_candidates text) [] 0).subset hw
    have hfil := (List.mem_filter.mp hcand).2
    simp only [Bool.and_eq_true, Bool.not_eq_true', decide_eq_true_eq] at hfil
    exact ⟨hfil.1, hfil.2, keyword_candidates_chars text w hcand⟩
  · exact kwLoop_nodup top_k (keyword_candidates text) [] 0
  · exact kwLoop_sublist top_k (keyword_candidates text) [] 0
  · have h := kwLoop_length top_k (keyword_candidates text) [] 0
    simpa using h

/-- Claim C9 witness: concrete facts obtained from the amended theorem
at a concrete text: the extracted word `"problema"` is not a stopword
and is longer than 3 characters, and the output is duplicate-free and
within the length bound. -/
theorem claim_C9_witness :
    (stopwords.contains "problema" = false ∧ 3 < "problema".length ∧
      ∀ c ∈ "problema".data, isKwChar c = true) ∧
    (extract_keywords "tenho um problema" 2).Nodup ∧
    (extract_keywords "tenho um problema" 2).length ≤ max 1 2 := by
  refine ⟨(claim_C9 "tenho um problema" 2).1 "problema" (by decide),
    (claim_C9 "tenho um problema" 2).2.1,
    (claim_C9 "tenho um problema" 2).2.2.2⟩

lemma subScan_nil (tm : Option Char → Char → List Char → Option Nat) (repl : List Char)
    (p : Option Char) : subScan tm repl p [] = [] := by
  rw [subScan]

lemma subScan_match (tm : Option Char → Char → List Char → Option Nat) (repl : List Char)
    (p : Option Char) (c : Char) (cs : List Char) (k : Nat) (h : tm p c cs = some k) :
    subScan tm repl p (c :: cs) =
      repl ++ subScan tm repl (some ((c :: cs.take k).getLastD c)) (cs.drop k) := by
  rw [subScan]
  simp [h]

lemma subScan_nomatch (tm : Option Char → Char → List Char → Option Nat) (repl : List Char)
    (p : Option Char) (c : Char) (cs : List Char) (h : tm p c cs = none) :
    subScan tm repl p (c :: cs) = c :: subScan tm repl (some c) cs := by
  rw [subScan]
  simp [h]

lemma subScan_step (tm : Option Char → Char → List Char → Option Nat) (rtl : List Char)
    (p : Option Char) (l : List Char) (x : Char) (t : List Char)
    (h : subScan tm ('[' :: rtl) p l = x :: t) (hx : ¬(x = '[')) :
    ∃ l', l = x :: l' ∧ t = subScan tm ('[' :: rtl) (some x) l' := by
  cases l with
  | nil => rw [subScan_nil] at h; cases h
  | cons c cs =>
    cases hm : tm p c cs with
    | some k =>
      rw [subScan_match tm _ p c cs k hm] at h
      simp only [List.cons_append] at h
      exact absurd (List.head_eq_of_cons_eq h).symm hx
    | none =>
      rw [subScan_nomatch tm _ p c cs hm] at h
      exact ⟨cs, by rw [List.head_eq_of_cons_eq h],
        (List.tail_eq_of_cons_eq h).symm ▸ by
          rw [← List.head_eq_of_cons_eq h]⟩

lemma tokConsume_drop : (toks : List Tok) → (l : List Char) → (n : Nat) → (rest : List Char) →
    tokConsume toks l = some (n, rest) → rest = l.drop n ∧ n ≤ l.length
  | [], l, n, rest, h => by
    simp [tokConsume] at h
    simp [← h.1, ← h.2]
  | Tok.dexact 0 :: ts, l, n, rest, h => by
    simp only [tokConsume] at h
    exact tokConsume_drop ts l n rest h
  | Tok.dexact (k + 1) :: ts, [], n, rest, h => by simp [tokConsume] at h
  | Tok.dexact (k + 1) :: ts, c :: cs, n, rest, h => by
    simp only [tokConsume] at h
    split at h
    · cases hin : tokConsume (Tok.dexact k :: ts) cs with
      | none => rw [hin] at h; cases h
      | some p2 =>
        rw [hin] at h
        simp only [Option.map_some'] at h
        obtain ⟨h1, h2⟩ := Prod.mk.injEq .. ▸ (Option.some_inj.mp h)
        have ih := tokConsume_drop (Tok.dexact k :: ts) cs p2.1 p2.2 (by rw [hin])
        constructor
        · rw [← h1, ← h2, List.drop_succ_cons]
          exact ih.1
        · rw [← h1]
          simp only [List.length_cons]
          omega
    · cases h
  | Tok.dmin k :: ts, [], n, rest, h => by
    simp only [tokConsume] at h
    split at h
    · exact tokConsume_drop ts [] n rest h
    · cases h
  | Tok.dmin k :: ts, c :: cs, n, rest, h => by
    simp only [tokConsume] at h
    split at h
    · cases hin : tokConsume (Tok.dmin (k - 1) :: ts) cs with
      | none => rw [hin] at h; cases h
      | some p2 =>
        rw [hin] at h
        simp only [Option.map_some'] at h
        obtain ⟨h1, h2⟩ := Prod.mk.injEq .. ▸ (Option.some_inj.mp h)
        have ih := tokConsume_drop (Tok.dmin (k - 1) :: ts) cs p2.1 p2.2 (by rw [hin])
        constructor
        · rw [← h1, ← h2, List.drop_succ_cons]
          exact ih.1
        · rw [← h1]
          simp only [List.length_cons]
          omega
    · split at h
      · have ih := tokConsume_drop ts (c :: cs) n rest h
        exact ih
      · cases h
  | Tok.lit ch :: ts, [], n, rest, h => by simp [tokConsume] at h
  | Tok.lit ch :: ts, c :: cs, n, rest, h => by
    simp only [tokConsume] at h
    split at h
    · cases hin : tokConsume ts cs with
      | none => rw [hin] at h; cases h
      | some p2 =>
        rw [hin] at h
        simp only [Option.map_some'] at h
        obtain ⟨h1, h2⟩ := Prod.mk.injEq .. ▸ (Option.some_inj.mp h)
        have ih := tokConsume_drop ts cs p2.1 p2.2 (by rw [hin])
        constructor
        · rw [← h1, ← h2, List.drop_succ_cons]
          exact ih.1
        · rw [← h1]
          simp only [List.length_cons]
          omega
    · cases h
termination_by toks l _ _ _ => l.length + toks.length

lemma tokConsume_head_fail (toks : List Tok) (c : Char) (cs : List Char)
    (hd : headDigitTok toks = true) (hp : toksPos toks = true) (hc : ¬(isDigitCh c = true)) :
    tokConsume toks (c :: cs) = none := by
  cases toks with
  | nil => simp [headDigitTok] at hd
  | cons t ts =>
    cases t with
    | dexact k =>
      simp only [toksPos, Bool.and_eq_true, decide_eq_true_eq] at hp
      obtain ⟨hk, _⟩ := hp
      cases k with
      | zero => omega
      | succ k2 => simp [tokConsume, hc]
    | dmin k =>
      simp only [toksPos, Bool.and_eq_true, decide_eq_true_eq] at hp
      obtain ⟨hk, _⟩ := hp
      simp [tokConsume, hc]
      omega
    | lit ch => simp [headDigitTok] at hd

lemma tryTok_head_fail (toks : List Tok) (p : Option Char) (c : Char) (cs : List Char)
    (hd : headDigitTok toks = true) (hp : toksPos toks = true) (hc : ¬(isDigitCh c = true)) :
    tryTok toks p c cs = none := by
  unfold tryTok
  rw [tokConsume_head_fail toks c cs hd hp hc]
  split <;> rfl

lemma tryTok_word_prev (toks : List Tok) (d : Char) (c : Char) (cs : List Char)
    (hw : isWordCh d = true) : tryTok toks (some d) c cs = none := by
  simp [tryTok, nwOpt, hw]

lemma tryTok_success (toks : List Tok) (p : Option Char) (c : Char) (cs : List Char) (k : Nat)
    (h : tryTok toks p c cs = some k) :
    ∃ rest, tokConsume toks (c :: cs) = some (k + 1, rest) ∧
      headNonWord rest = true ∧ rest = cs.drop k := by
  by_cases hnw : nwOpt p = true
  · cases htc : tokConsume toks (c :: cs) with
    | none => simp [tryTok, hnw, htc] at h
    | some pr =>
      obtain ⟨n0, rest0⟩ := pr
      simp only [tryTok, hnw, htc, if_true] at h
      by_cases hb : headNonWord rest0 = true
      · rw [if_pos hb] at h
        cases n0 with
        | zero => cases h
        | succ m =>
          have hmk : m = k := Option.some_inj.mp h
          subst hmk
          have hdr := tokConsume_drop toks (c :: cs) (m + 1) rest0 htc
          refine ⟨rest0, rfl, hb, ?_⟩
          rw [hdr.1]
          simp
      · rw [if_neg hb] at h; cases h
  · simp [tryTok, hnw] at h

lemma hasScan_cons_nondigit (toksP : List Tok) (hd : headDigitTok toksP = true)
    (hp : toksPos toksP = true) (q : Option Char) (c : Char) (t : List Char)
    (hc : ¬(isDigitCh c = true)) :
    hasScan (tryTok toksP) q (c :: t) = hasScan (tryTok toksP) (some c) t := by
  simp [hasScan, tryTok_head_fail toksP q c t hd hp hc]

lemma hasScan_append_nd (toksP : List Tok) (hd : headDigitTok toksP = true)
    (hp : toksPos toksP = true) :
    ∀ (r : List Char) (q : Option Char) (t : List Char),
      (∀ x ∈ r, ¬(isDigitCh x = true)) →
      ∃ q2, hasScan (tryTok toksP) q (r ++ t) = hasScan (tryTok toksP) q2 t := by
  intro r
  induction r with
  | nil => intro q t _; exact ⟨q, rfl⟩
  | cons y r' ih =>
    intro q t hnd
    rw [List.cons_append,
      hasScan_cons_nondigit toksP hd hp q y (r' ++ t) (hnd y (List.mem_cons_self y r'))]
    exact ih (some y) t (fun x hx => hnd x (List.mem_cons_of_mem y hx))

lemma hasScan_suffix (tm : Option Char → Char → List Char → Option Nat) :
    ∀ (l : List Char) (q : Option Char) (j : Nat),
      hasScan tm q l = false → ∃ q2, hasScan tm q2 (l.drop j) = false := by
  intro l
  induction l with
  | nil => intro q j h; exact ⟨q, by simpa [List.drop_nil] using h⟩
  | cons c cs ih =>
    intro q j h
    simp only [hasScan, Bool.or_eq_false_iff] at h
    cases j with
    | zero => exact ⟨q, by simp [hasScan, h.1, h.2]⟩
    | succ j2 => exact ih (some c) j2 h.2

lemma hasScan_ctx_nondigit (toksP : List Tok) (hd : headDigitTok toksP = true)
    (hp : toksPos toksP = true) (l : List Char) (q1 q2 : Option Char)
    (hl : l = [] ∨ ∃ y ys, l = y :: ys ∧ ¬(isDigitCh y = true)) :
    hasScan (tryTok toksP) q1 l = hasScan (tryTok toksP) q2 l := by
  rcases hl with h | ⟨y, ys, h, hy⟩
  · subst h; rfl
  · subst h
    rw [hasScan_cons_nondigit toksP hd hp q1 y ys hy,
      hasScan_cons_nondigit toksP hd hp q2 y ys hy]

lemma runLit_window (π : Char → Bool) (χ : Char) (hπ : π '[' = false) (hχ : ¬('[' = χ))
    (tm : Option Char → Char → List Char → Option Nat) (rtl : List Char) :
    ∀ (cs : List Char) (ps : Option Char) (n : Nat),
      runLit π χ (subScan tm ('[' :: rtl) ps cs) = some n →
      runLit π χ cs = some n ∧
        ∃ ps2, (subScan tm ('[' :: rtl) ps cs).drop n =
          subScan tm ('[' :: rtl) ps2 (cs.drop n) := by
  intro cs
  induction cs with
  | nil =>
    intro ps n h
    rw [subScan_nil] at h
    cases h
  | cons c cs' ih =>
    intro ps n h
    cases hm : tm ps c cs' with
    | some k =>
      rw [subScan_match tm _ ps c cs' k hm] at h
      simp [List.cons_append, runLit, hπ, hχ] at h
    | none =>
      rw [subScan_nomatch tm _ ps c cs' hm] at h
      rw [subScan_nomatch tm _ ps c cs' hm]
      by_cases hc : π c = true
      · simp only [runLit, hc, if_true] at h ⊢
        cases h2 : runLit π χ (subScan tm ('[' :: rtl) (some c) cs') with
        | none => rw [h2] at h; cases h
        | some n2 =>
          rw [h2] at h
          simp only [Option.map_some'] at h
          obtain ⟨hin, ps2, hdrop⟩ := ih (some c) n2 h2
          rw [hin]
          simp only [Option.map_some']
          refine ⟨h, ps2, ?_⟩
          have hn : n = n2 + 1 := (Option.some_inj.mp h).symm
          subst hn
          simpa using hdrop
      · by_cases hx : c = χ
        · have hout : runLit π χ (c :: subScan tm ('[' :: rtl) (some c) cs') = some 1 := by
            simp only [runLit]
            rw [if_neg hc, if_pos hx]
          rw [hout] at h
          have hn : n = 1 := (Option.some_inj.mp h).symm
          subst hn
          have hin : runLit π χ (c :: cs') = some 1 := by
            simp only [runLit]
            rw [if_neg hc, if_pos hx]
          refine ⟨hin, some c, ?_⟩
          simp
        · have hout : runLit π χ (c :: subScan tm ('[' :: rtl) (some c) cs') = none := by
            simp only [runLit]
            rw [if_neg hc, if_neg hx]
          rw [hout] at h
          cases h

lemma tryEmail_some_iff (q : Option Char) (c : Char) (l : List Char) (k : Nat) :
    tryEmail q c l = some k ↔
      ∃ n1 d ds n2 e es, inLocal c = true ∧ runLit inLocal '@' l = some n1 ∧
        l.drop n1 = d :: ds ∧ inDom1 d = true ∧ runLit inDom1 '.' ds = some n2 ∧
        ds.drop n2 = e :: es ∧ inDom2 e = true ∧
        k = n1 + n2 + (es.takeWhile inDom2).length + 2 := by
  constructor
  · intro h
    unfold tryEmail at h
    split at h
    case isFalse => cases h
    case isTrue hL =>
      split at h
      case h_1 => cases h
      case h_2 n1 heq1 =>
        split at h
        case h_2 => cases h
        case h_1 d ds heq2 =>
          split at h
          case isFalse => cases h
          case isTrue hd =>
            split at h
            case h_1 => cases h
            case h_2 n2 heq3 =>
              split at h
              case h_2 => cases h
              case h_1 e es heq4 =>
                split at h
                case isFalse => cases h
                case isTrue he =>
                  exact ⟨n1, d, ds, n2, e, es, hL, heq1, heq2, hd, heq3, heq4, he,
                    (Option.some_inj.mp h).symm⟩
  · rintro ⟨n1, d, ds, n2, e, es, hL, h1, h2, hd, h3, h4, he, hk⟩
    unfold tryEmail
    rw [if_pos hL, h1]
    dsimp only
    rw [h2]
    dsimp only
    rw [if_pos hd, h3]
    dsimp only
    rw [h4]
    dsimp only
    rw [if_pos he, hk]

lemma tryEmail_window (tm : Option Char → Char → List Char → Option Nat) (rtl : List Char)
    (cs : List Char) (ps q : Option Char) (c : Char) (k : Nat)
    (h : tryEmail q c (subScan tm ('[' :: rtl) ps cs) = some k) :
    ∃ k2, tryEmail q c cs = some k2 := by
  rw [tryEmail_some_iff] at h
  obtain ⟨n1, d, ds, n2, e, es, hL, h1, h2, hd, h3, h4, he, _⟩ := h
  obtain ⟨h1in, ps1, hdrop1⟩ := runLit_window inLocal '@' (by decide) (by decide) tm rtl cs ps n1 h1
  rw [hdrop1] at h2
  obtain ⟨l1, hl1, hds⟩ := subScan_step tm rtl ps1 (cs.drop n1) d ds h2
    (fun he2 => by rw [he2] at hd; exact absurd hd (by decide))
  rw [hds] at h3
  obtain ⟨h3in, ps2, hdrop2⟩ := runLit_window inDom1 '.' (by decide) (by decide) tm rtl l1 (some d) n2 h3
  rw [hds, hdrop2] at h4
  obtain ⟨l2, hl2, _⟩ := subScan_step tm rtl ps2 (l1.drop n2) e es h4
    (fun he2 => by rw [he2] at he; exact absurd he (by decide))
  refine ⟨n1 + n2 + ((l2.takeWhile inDom2).length) + 2, ?_⟩
  rw [tryEmail_some_iff]
  exact ⟨n1, d, l1, n2, e, l2, hL, h1in, by rw [hl1], hd, h3in, by rw [hl2], he, rfl⟩

lemma tryEmail_ctx (q1 q2 : Option Char) (c : Char) (cs : List Char) :
    tryEmail q1 c cs = tryEmail q2 c cs := rfl

lemma runLit_local_app : ∀ (u t : List Char), (∀ x ∈ u, inLocal x = true) →
    runLit inLocal '@' (u ++ ']' :: t) = none := by
  intro u
  induction u with
  | nil =>
    intro t _
    simp only [List.nil_append, runLit]
    rw [if_neg (by decide), if_neg (by decide)]
  | cons y u' ih =>
    intro t hu
    simp only [List.cons_append, runLit, List.append_eq]
    rw [if_pos (hu y (List.mem_cons_self y u')), ih t (fun x hx => hu x (List.mem_cons_of_mem y hx))]
    rfl

lemma hasScan_email_through (v : List Char) (hv : ∀ x ∈ v, inLocal x = true) :
    ∀ (q : Option Char) (t : List Char),
      hasScan tryEmail q (v ++ ']' :: t) = hasScan tryEmail (some ']') t := by
  induction v with
  | nil =>
    intro q t
    simp only [List.nil_append, hasScan]
    have he : tryEmail q ']' t = none := by
      unfold tryEmail
      rw [if_neg (by decide)]
    rw [he]
    rfl
  | cons y v' ih =>
    intro q t
    simp only [List.cons_append, hasScan, List.append_eq]
    have he : tryEmail q y (v' ++ ']' :: t) = none := by
      unfold tryEmail
      rw [if_pos (hv y (List.mem_cons_self y v')),
        runLit_local_app v' t (fun x hx => hv x (List.mem_cons_of_mem y hx))]
    rw [he]
    simp only [Option.isSome_none, Bool.false_or]
    exact ih (fun x hx => hv x (List.mem_cons_of_mem y hx)) (some y) t

lemma hasScan_email_repl (v : List Char) (hv : ∀ x ∈ v, inLocal x = true) (q : Option Char)
    (t : List Char) :
    hasScan tryEmail q (('[' :: (v ++ [']'])) ++ t) = hasScan tryEmail (some ']') t := by
  have hsh : ('[' :: (v ++ [']'])) ++ t = '[' :: (v ++ (']' :: t)) := by simp
  rw [hsh]
  simp only [hasScan]
  have he : tryEmail q '[' (v ++ ']' :: t) = none := by
    unfold tryEmail
    rw [if_neg (by decide)]
  rw [he]
  simp only [Option.isSome_none, Bool.false_or]
  exact hasScan_email_through v hv (some '[') t

lemma email_selfelim : (cs : List Char) → (ps q : Option Char) →
    hasScan tryEmail q (subScan tryEmail replEmail ps cs) = false
  | [], ps, q => by rw [subScan_nil]; rfl
  | c :: cs', ps, q => by
    cases hm : tryEmail ps c cs' with
    | some k =>
      rw [subScan_match tryEmail replEmail ps c cs' k hm]
      have hrepl : replEmail = '[' :: ("EMAIL_REMOVIDO".data ++ [']']) := by decide
      rw [hrepl, hasScan_email_repl "EMAIL_REMOVIDO".data (by decide) q _]
      rw [← hrepl]
      exact email_selfelim (cs'.drop k) _ (some ']')
    | none =>
      rw [subScan_nomatch tryEmail replEmail ps c cs' hm]
      simp only [hasScan]
      have h1 : tryEmail q c (subScan tryEmail replEmail (some c) cs') = none := by
        cases h2 : tryEmail q c (subScan tryEmail replEmail (some c) cs') with
        | none => rfl
        | some k2 =>
          have hre : replEmail = '[' :: "EMAIL_REMOVIDO]".data := by decide
          rw [hre] at h2
          obtain ⟨k3, h3⟩ := tryEmail_window tryEmail "EMAIL_REMOVIDO]".data cs' (some c) q c k2 h2
          rw [tryEmail_ctx q ps c cs', hm] at h3
          cases h3
      rw [h1]
      simp only [Option.isSome_none, Bool.false_or]
      exact email_selfelim cs' (some c) (some c)
termination_by cs _ _ => cs.length
decreasing_by
  all_goals simp only [List.length_cons, List.length_drop]
  all_goals omega

lemma email_preserve : (cs : List Char) → (ps q q0 : Option Char) → (toksX : List Tok) →
    (v : List Char) → (hv : ∀ x ∈ v, inLocal x = true) →
    hasScan tryEmail q0 cs = false →
    hasScan tryEmail q (subScan (tryTok toksX) ('[' :: (v ++ [']'])) ps cs) = false
  | [], _, _, _, _, _, _, _ => by rw [subScan_nil]; rfl
  | c :: cs', ps, q, q0, toksX, v, hv, hin => by
    have hin' : (tryEmail q0 c cs').isSome = false ∧ hasScan tryEmail (some c) cs' = false := by
      simpa only [hasScan, Bool.or_eq_false_iff] using hin
    cases hm : tryTok toksX ps c cs' with
    | some k =>
      rw [subScan_match (tryTok toksX) _ ps c cs' k hm]
      rw [hasScan_email_repl v hv q _]
      obtain ⟨q2, hq2⟩ := hasScan_suffix tryEmail cs' (some c) k hin'.2
      exact email_preserve (cs'.drop k) _ (some ']') q2 toksX v hv hq2
    | none =>
      rw [subScan_nomatch (tryTok toksX) _ ps c cs' hm]
      simp only [hasScan]
      have h1 : tryEmail q c (subScan (tryTok toksX) ('[' :: (v ++ [']'])) (some c) cs') = none := by
        cases h2 : tryEmail q c (subScan (tryTok toksX) ('[' :: (v ++ [']'])) (some c) cs') with
        | none => rfl
        | some k2 =>
          obtain ⟨k3, h3⟩ := tryEmail_window (tryTok toksX) (v ++ [']']) cs' (some c) q c k2 h2
          rw [tryEmail_ctx q q0 c cs'] at h3
          rw [h3] at hin'
          simp at hin'
      rw [h1]
      simp only [Option.isSome_none, Bool.false_or]
      exact email_preserve cs' (some c) (some c) (some c) toksX v hv hin'.2
termination_by cs _ _ _ _ _ _ _ => cs.length
decreasing_by
  all_goals simp only [List.length_cons, List.length_drop]
  all_goals omega

lemma toksPos_tail (l : List Tok) (h : toksPos l = true) : toksPos l.tail = true := by
  cases l with
  | nil => exact h
  | cons t ts =>
    cases t with
    | dexact k => simpa [toksPos, Bool.and_eq_true] using (Bool.and_eq_true _ _ ▸ h).2
    | dmin k => simpa [toksPos, Bool.and_eq_true] using (Bool.and_eq_true _ _ ▸ h).2
    | lit ch => exact h

lemma headZeroD_of_pos (l : List Tok) (h : toksPos l = true) : headZeroD l = false := by
  cases l with
  | nil => rfl
  | cons t ts =>
    cases t with
    | dexact k =>
      simp only [toksPos, Bool.and_eq_true, decide_eq_true_eq] at h
      cases k with
      | zero => omega
      | succ k2 => rfl
    | dmin k =>
      simp only [toksPos, Bool.and_eq_true, decide_eq_true_eq] at h
      cases k with
      | zero => omega
      | succ k2 => rfl
    | lit ch => rfl

lemma endsD_cons (t : Tok) (ts : List Tok) (h : ¬(ts = [])) : endsD (t :: ts) = endsD ts := by
  cases ts with
  | nil => exact absurd rfl h
  | cons t2 ts2 => cases t <;> rfl

lemma litsNoBracket_tail (l : List Tok) (h : litsNoBracket l = true) :
    litsNoBracket l.tail = true := by
  cases l with
  | nil => exact h
  | cons t ts =>
    cases t with
    | dexact k => exact h
    | dmin k => exact h
    | lit ch => exact (Bool.and_eq_true _ _ ▸ h).2

lemma isWordCh_of_digit (d : Char) (h : isDigitCh d = true) : isWordCh d = true := by
  simp [isWordCh, h]

lemma tokConsume_window : (toksP : List Tok) → (cs : List Char) → (ps : Option Char) →
    (n : Nat) → (rest' : List Char) → (toksX : List Tok) → (rtl : List Char) →
    toksPos toksP.tail = true →
    litsNoBracket toksP = true →
    (headZeroD toksP = true → ∃ d, ps = some d ∧ isDigitCh d = true) →
    tokConsume toksP (subScan (tryTok toksX) ('[' :: rtl) ps cs) = some (n, rest') →
    ∃ rest ps2, tokConsume toksP cs = some (n, rest) ∧
      rest' = subScan (tryTok toksX) ('[' :: rtl) ps2 rest ∧
      (endsD toksP = true → ∃ d2, ps2 = some d2 ∧ isDigitCh d2 = true) ∧
      (n = 0 → ps2 = ps)
  | [], cs, ps, n, rest', toksX, rtl, _, _, _, h => by
    simp only [tokConsume, Option.some_inj, Prod.mk.injEq] at h
    refine ⟨cs, ps, ?_, h.2.symm, ?_, fun _ => rfl⟩
    · simp only [tokConsume, ← h.1]
    · intro he; simp [endsD] at he
  | Tok.dexact 0 :: ts, cs, ps, n, rest', toksX, rtl, hpos, hlit, hinv, h => by
    simp only [tokConsume] at h
    have hts : toksPos ts = true := hpos
    have ih := tokConsume_window ts cs ps n rest' toksX rtl (toksPos_tail ts hts)
      (litsNoBracket_tail _ hlit)
      (fun hz => absurd hz (by simp [headZeroD_of_pos ts hts])) h
    obtain ⟨rest, ps2, hin, hr, hend, hn0⟩ := ih
    refine ⟨rest, ps2, ?_, hr, ?_, hn0⟩
    · simp only [tokConsume]; exact hin
    · intro he
      cases ts with
      | nil =>
        have hn : n = 0 := by
          have h9 := hin
          simp only [tokConsume, Option.some_inj, Prod.mk.injEq] at h9
          omega
        obtain ⟨d, hd1, hd2⟩ := hinv rfl
        exact ⟨d, by rw [hn0 hn, hd1], hd2⟩
      | cons t2 ts2 =>
        exact hend (by rwa [endsD_cons _ _ (by simp)] at he)
  | Tok.dexact (k + 1) :: ts, cs, ps, n, rest', toksX, rtl, hpos, hlit, hinv, h => by
    cases cs with
    | nil => rw [subScan_nil] at h; simp [tokConsume] at h
    | cons c cs' =>
      cases hm : tryTok toksX ps c cs' with
      | some k2 =>
        rw [subScan_match _ _ ps c cs' k2 hm] at h
        simp only [List.cons_append, tokConsume] at h
        rw [if_neg (by decide : ¬(isDigitCh '[' = true))] at h
        cases h
      | none =>
        rw [subScan_nomatch _ _ ps c cs' hm] at h
        simp only [tokConsume] at h
        split at h
        next hc =>
          cases hin2 : tokConsume (Tok.dexact k :: ts)
              (subScan (tryTok toksX) ('[' :: rtl) (some c) cs') with
          | none => rw [hin2] at h; cases h
          | some p2 =>
            obtain ⟨n2, r2⟩ := p2
            rw [hin2] at h
            simp only [Option.map_some', Option.some_inj, Prod.mk.injEq] at h
            obtain ⟨hn, hr⟩ := h
            have ih := tokConsume_window (Tok.dexact k :: ts) cs' (some c) n2 r2 toksX rtl
              hpos hlit (fun _ => ⟨c, rfl, hc⟩) hin2
            obtain ⟨rest, ps2, hin, hrw, hend, _⟩ := ih
            refine ⟨rest, ps2, ?_, by rw [← hr]; exact hrw, ?_, ?_⟩
            · simp only [tokConsume]
              rw [if_pos hc, hin]
              simp only [Option.map_some']
              rw [hn]
            · intro he
              apply hend
              cases ts with
              | nil => rfl
              | cons t2 ts2 =>
                rw [endsD_cons _ _ (by simp)]
                rwa [endsD_cons _ _ (by simp)] at he
            · intro h0
              rw [← hn] at h0
              exact (Nat.succ_ne_zero n2 h0).elim
        next => cases h
  | Tok.dmin k :: ts, cs, ps, n, rest', toksX, rtl, hpos, hlit, hinv, h => by
    cases cs with
    | nil =>
      rw [subScan_nil] at h
      simp only [tokConsume] at h
      split at h
      next hk =>
        have hts : toksPos ts = true := hpos
        have ih := tokConsume_window ts [] ps n rest' toksX rtl (toksPos_tail ts hts)
          (litsNoBracket_tail _ hlit)
          (fun hz => absurd hz (by simp [headZeroD_of_pos ts hts]))
          (by rw [subScan_nil]; exact h)
        obtain ⟨rest, ps2, hin, hrw, hend, hn0⟩ := ih
        refine ⟨rest, ps2, ?_, hrw, ?_, hn0⟩
        · simp only [tokConsume]
          rw [if_pos hk]
          exact hin
        · intro he
          cases ts with
          | nil =>
            have hn : n = 0 := by
              have h9 := hin
              simp only [tokConsume, Option.some_inj, Prod.mk.injEq] at h9
              omega
            obtain ⟨d, hd1, hd2⟩ := hinv (by rw [hk]; rfl)
            exact ⟨d, by rw [hn0 hn, hd1], hd2⟩
          | cons t2 ts2 =>
            exact hend (by rwa [endsD_cons _ _ (by simp)] at he)
      next => cases h
    | cons c cs' =>
      cases hm : tryTok toksX ps c cs' with
      | some k2 =>
        rw [subScan_match _ _ ps c cs' k2 hm] at h
        simp only [List.cons_append, tokConsume] at h
        rw [if_neg (by decide : ¬(isDigitCh '[' = true))] at h
        split at h
        next hk =>
          obtain ⟨d, hd1, hd2⟩ := hinv (by rw [hk]; rfl)
          rw [hd1, tryTok_word_prev toksX d c cs' (isWordCh_of_digit d hd2)] at hm
          cases hm
        next => cases h
      | none =>
        rw [subScan_nomatch _ _ ps c cs' hm] at h
        simp only [tokConsume] at h
        split at h
        next hc =>
          cases hin2 : tokConsume (Tok.dmin (k - 1) :: ts)
              (subScan (tryTok toksX) ('[' :: rtl) (some c) cs') with
          | none => rw [hin2] at h; cases h
          | some p2 =>
            obtain ⟨n2, r2⟩ := p2
            rw [hin2] at h
            simp only [Option.map_some', Option.some_inj, Prod.mk.injEq] at h
            obtain ⟨hn, hr⟩ := h
            have ih := tokConsume_window (Tok.dmin (k - 1) :: ts) cs' (some c) n2 r2 toksX rtl
              hpos hlit (fun _ => ⟨c, rfl, hc⟩) hin2
            obtain ⟨rest, ps2, hin, hrw, hend, _⟩ := ih
            refine ⟨rest, ps2, ?_, by rw [← hr]; exact hrw, ?_, ?_⟩
            · simp only [tokConsume]
              rw [if_pos hc, hin]
              simp only [Option.map_some']
              rw [hn]
            · intro he
              apply hend
              cases ts with
              | nil => rfl
              | cons t2 ts2 =>
                rw [endsD_cons _ _ (by simp)]
                rwa [endsD_cons _ _ (by simp)] at he
            · intro h0
              rw [← hn] at h0
              exact (Nat.succ_ne_zero n2 h0).elim
        next hc =>
          split at h
          next hk =>
            have hts : toksPos ts = true := hpos
            have ih := tokConsume_window ts (c :: cs') ps n rest' toksX rtl
              (toksPos_tail ts hts) (litsNoBracket_tail _ hlit)
              (fun hz => absurd hz (by simp [headZeroD_of_pos ts hts]))
              (by rw [subScan_nomatch _ _ ps c cs' hm]; exact h)
            obtain ⟨rest, ps2, hin, hrw, hend, hn0⟩ := ih
            refine ⟨rest, ps2, ?_, hrw, ?_, hn0⟩
            · simp only [tokConsume]
              rw [if_neg hc, if_pos hk]
              exact hin
            · intro he
              cases ts with
              | nil =>
                have hn : n = 0 := by
                  have h9 := hin
                  simp only [tokConsume, Option.some_inj, Prod.mk.injEq] at h9
                  omega
                obtain ⟨d, hd1, hd2⟩ := hinv (by rw [hk]; rfl)
                exact ⟨d, by rw [hn0 hn, hd1], hd2⟩
              | cons t2 ts2 =>
                exact hend (by rwa [endsD_cons _ _ (by simp)] at he)
          next => cases h
  | Tok.lit ch :: ts, cs, ps, n, rest', toksX, rtl, hpos, hlit, hinv, h => by
    have hlb : ¬(ch = '[') ∧ litsNoBracket ts = true := by
      simpa only [litsNoBracket, Bool.and_eq_true, Bool.not_eq_true', decide_eq_false_iff_not]
        using hlit
    cases cs with
    | nil => rw [subScan_nil] at h; simp [tokConsume] at h
    | cons c cs' =>
      cases hm : tryTok toksX ps c cs' with
      | some k2 =>
        rw [subScan_match _ _ ps c cs' k2 hm] at h
        simp only [List.cons_append, tokConsume] at h
        rw [if_neg (fun hh => hlb.1 hh.symm)] at h
        cases h
      | none =>
        rw [subScan_nomatch _ _ ps c cs' hm] at h
        simp only [tokConsume] at h
        split at h
        next hceq =>
          cases hin2 : tokConsume ts
              (subScan (tryTok toksX) ('[' :: rtl) (some c) cs') with
          | none => rw [hin2] at h; cases h
          | some p2 =>
            obtain ⟨n2, r2⟩ := p2
            rw [hin2] at h
            simp only [Option.map_some', Option.some_inj, Prod.mk.injEq] at h
            obtain ⟨hn, hr⟩ := h
            have hts : toksPos ts = true := hpos
            have ih := tokConsume_window ts cs' (some c) n2 r2 toksX rtl
              (toksPos_tail ts hts) hlb.2
              (fun hz => absurd hz (by simp [headZeroD_of_pos ts hts])) hin2
            obtain ⟨rest, ps2, hin, hrw, hend, _⟩ := ih
            refine ⟨rest, ps2, ?_, by rw [← hr]; exact hrw, ?_, ?_⟩
            · simp only [tokConsume]
              rw [if_pos hceq, hin]
              simp only [Option.map_some']
              rw [hn]
            · intro he
              cases ts with
              | nil => rw [show endsD [Tok.lit ch] = false from rfl] at he; cases he
              | cons t2 ts2 =>
                exact hend (by rwa [endsD_cons _ _ (by simp)] at he)
            · intro h0
              rw [← hn] at h0
              exact (Nat.succ_ne_zero n2 h0).elim
        next => cases h
termination_by toksP cs _ _ _ _ _ _ _ _ _ => cs.length + toksP.length
decreasing_by
  all_goals (subst_vars; simp only [List.length_cons, List.length_drop]; omega)

lemma headNonWord_transfer (toksX : List Tok) (rtl : List Char) (rest : List Char) (d : Char)
    (hd : isDigitCh d = true)
    (h : headNonWord (subScan (tryTok toksX) ('[' :: rtl) (some d) rest) = true) :
    headNonWord rest = true := by
  cases rest with
  | nil => rfl
  | cons y t =>
    rw [subScan_nomatch _ _ _ y t (tryTok_word_prev toksX d y t (isWordCh_of_digit d hd))] at h
    exact h

lemma tryTok_build (toks : List Tok) (q : Option Char) (c : Char) (cs : List Char) (m : Nat)
    (rest : List Char) (hq : nwOpt q = true) (htc : tokConsume toks (c :: cs) = some (m + 1, rest))
    (hb : headNonWord rest = true) : tryTok toks q c cs = some m := by
  simp only [tryTok, hq, if_true, htc, hb]

lemma tok_preserve : (cs : List Char) → (ps q : Option Char) → (toksP toksX : List Tok) →
    (rtl : List Char) →
    toksPos toksP = true → headDigitTok toksP = true → endsD toksP = true →
    litsNoBracket toksP = true → toksPos toksX = true → headDigitTok toksX = true →
    (∀ x ∈ ('[' :: rtl), ¬(isDigitCh x = true)) →
    hasScan (tryTok toksP) q cs = false →
    hasScan (tryTok toksP) q (subScan (tryTok toksX) ('[' :: rtl) ps cs) = false
  | [], _, _, _, _, _, _, _, _, _, _, _, _, _ => by rw [subScan_nil]; rfl
  | c :: cs', ps, q, toksP, toksX, rtl, hPp, hPd, hPe, hPl, hXp, hXd, hRnd, hin => by
    have hin' : (tryTok toksP q c cs').isSome = false ∧
        hasScan (tryTok toksP) (some c) cs' = false := by
      simpa only [hasScan, Bool.or_eq_false_iff] using hin
    cases hm : tryTok toksX ps c cs' with
    | some k =>
      rw [subScan_match (tryTok toksX) _ ps c cs' k hm]
      obtain ⟨restX, htcX, hbX, hdX⟩ := tryTok_success toksX ps c cs' k hm
      have hshape : cs'.drop k = [] ∨ ∃ y ys, cs'.drop k = y :: ys ∧ ¬(isDigitCh y = true) := by
        rw [← hdX]
        cases restX with
        | nil => exact Or.inl rfl
        | cons y t =>
          refine Or.inr ⟨y, t, rfl, ?_⟩
          intro hy
          simp [headNonWord, isWordCh_of_digit y hy] at hbX
      obtain ⟨q2, hq2⟩ := hasScan_append_nd toksP hPd hPp ('[' :: rtl) q
        (subScan (tryTok toksX) ('[' :: rtl) (some ((c :: cs'.take k).getLastD c)) (cs'.drop k))
        hRnd
      rw [hq2]
      obtain ⟨q3, hq3⟩ := hasScan_suffix (tryTok toksP) cs' (some c) k hin'.2
      have hq2in : hasScan (tryTok toksP) q2 (cs'.drop k) = false := by
        rw [hasScan_ctx_nondigit toksP hPd hPp (cs'.drop k) q2 q3 hshape]
        exact hq3
      exact tok_preserve (cs'.drop k) _ q2 toksP toksX rtl hPp hPd hPe hPl hXp hXd hRnd hq2in
    | none =>
      rw [subScan_nomatch (tryTok toksX) _ ps c cs' hm]
      simp only [hasScan]
      have h1 : tryTok toksP q c (subScan (tryTok toksX) ('[' :: rtl) (some c) cs') = none := by
        cases h2 : tryTok toksP q c (subScan (tryTok toksX) ('[' :: rtl) (some c) cs') with
        | none => rfl
        | some m =>
          have hq : nwOpt q = true := by
            by_contra hq
            simp [tryTok, hq] at h2
          obtain ⟨rest'', htc'', hb'', _⟩ := tryTok_success toksP q c _ m h2
          rw [show (c :: subScan (tryTok toksX) ('[' :: rtl) (some c) cs')
              = subScan (tryTok toksX) ('[' :: rtl) ps (c :: cs') from
              (subScan_nomatch _ _ ps c cs' hm).symm] at htc''
          obtain ⟨rest, ps2, hinC, hreq, hend, _⟩ := tokConsume_window toksP (c :: cs') ps
            (m + 1) rest'' toksX rtl (toksPos_tail _ hPp) hPl
            (fun hz => absurd hz (by simp [headZeroD_of_pos _ hPp])) htc''
          obtain ⟨d2, hd2a, hd2b⟩ := hend hPe
          have hbR : headNonWord rest = true := by
            apply headNonWord_transfer toksX rtl rest d2 hd2b
            rw [← hd2a, ← hreq]
            exact hb''
          have hcon : tryTok toksP q c cs' = some m :=
            tryTok_build toksP q c cs' m rest hq hinC hbR
          rw [hcon] at hin'
          simp at hin'
      rw [h1]
      simp only [Option.isSome_none, Bool.false_or]
      exact tok_preserve cs' (some c) (some c) toksP toksX rtl hPp hPd hPe hPl hXp hXd hRnd hin'.2
termination_by cs _ _ _ _ _ _ _ _ _ _ _ _ _ => cs.length
decreasing_by
  all_goals (subst_vars; simp only [List.length_cons, List.length_drop]; omega)

lemma tok_selfelim : (cs : List Char) → (ps q : Option Char) → (toksP : List Tok) →
    (rtl : List Char) →
    toksPos toksP = true → headDigitTok toksP = true → endsD toksP = true →
    litsNoBracket toksP = true →
    (∀ x ∈ ('[' :: rtl), ¬(isDigitCh x = true)) →
    (nwOpt q = true → nwOpt ps = true ∨ cs = [] ∨
      ∃ y ys, cs = y :: ys ∧ ¬(isDigitCh y = true)) →
    hasScan (tryTok toksP) q (subScan (tryTok toksP) ('[' :: rtl) ps cs) = false
  | [], _, _, _, _, _, _, _, _, _, _ => by rw [subScan_nil]; rfl
  | c :: cs', ps, q, toksP, rtl, hPp, hPd, hPe, hPl, hRnd, hctx => by
    cases hm : tryTok toksP ps c cs' with
    | some k =>
      rw [subScan_match (tryTok toksP) _ ps c cs' k hm]
      obtain ⟨restX, htcX, hbX, hdX⟩ := tryTok_success toksP ps c cs' k hm
      have hshape : cs'.drop k = [] ∨ ∃ y ys, cs'.drop k = y :: ys ∧ ¬(isDigitCh y = true) := by
        rw [← hdX]
        cases restX with
        | nil => exact Or.inl rfl
        | cons y t =>
          refine Or.inr ⟨y, t, rfl, ?_⟩
          intro hy
          simp [headNonWord, isWordCh_of_digit y hy] at hbX
      obtain ⟨q2, hq2⟩ := hasScan_append_nd toksP hPd hPp ('[' :: rtl) q
        (subScan (tryTok toksP) ('[' :: rtl) (some ((c :: cs'.take k).getLastD c)) (cs'.drop k))
        hRnd
      rw [hq2]
      exact tok_selfelim (cs'.drop k) _ q2 toksP rtl hPp hPd hPe hPl hRnd
        (fun _ => Or.inr hshape)
    | none =>
      rw [subScan_nomatch (tryTok toksP) _ ps c cs' hm]
      simp only [hasScan]
      have h1 : tryTok toksP q c (subScan (tryTok toksP) ('[' :: rtl) (some c) cs') = none := by
        cases h2 : tryTok toksP q c (subScan (tryTok toksP) ('[' :: rtl) (some c) cs') with
        | none => rfl
        | some m =>
          have hq : nwOpt q = true := by
            by_contra hq
            simp [tryTok, hq] at h2
          obtain ⟨rest'', htc'', hb'', _⟩ := tryTok_success toksP q c _ m h2
          rw [show (c :: subScan (tryTok toksP) ('[' :: rtl) (some c) cs')
              = subScan (tryTok toksP) ('[' :: rtl) ps (c :: cs') from
              (subScan_nomatch _ _ ps c cs' hm).symm] at htc''
          obtain ⟨rest, ps2, hinC, hreq, hend, _⟩ := tokConsume_window toksP (c :: cs') ps
            (m + 1) rest'' toksP rtl (toksPos_tail _ hPp) hPl
            (fun hz => absurd hz (by simp [headZeroD_of_pos _ hPp])) htc''
          rcases hctx hq with hps | hnil | ⟨y, ys, hcons, hynd⟩
          · obtain ⟨d2, hd2a, hd2b⟩ := hend hPe
            have hbR : headNonWord rest = true := by
              apply headNonWord_transfer toksP rtl rest d2 hd2b
              rw [← hd2a, ← hreq]
              exact hb''
            have hcon : tryTok toksP ps c cs' = some m :=
              tryTok_build toksP ps c cs' m rest hps hinC hbR
            rw [hcon] at hm
            cases hm
          · exact (List.cons_ne_nil c cs' hnil).elim
          · have hc : c = y := by
              injection hcons with h1 h2
            rw [tokConsume_head_fail toksP c cs' hPd hPp (by rw [hc]; exact hynd)] at hinC
            cases hinC
      rw [h1]
      simp only [Option.isSome_none, Bool.false_or]
      exact tok_selfelim cs' (some c) (some c) toksP rtl hPp hPd hPe hPl hRnd
        (fun h => Or.inl h)
termination_by cs _ _ _ _ _ _ _ _ _ _ => cs.length
decreasing_by
  all_goals (subst_vars; simp only [List.length_cons, List.length_drop]; omega)

lemma anonymizeL_clean (l : List Char) :
    searchEmail (anonymizeL l) = false ∧ searchTok cpfToks (anonymizeL l) = false ∧
    searchTok elevenToks (anonymizeL l) = false ∧ searchTok cnpjToks (anonymizeL l) = false ∧
    searchTok fourteenToks (anonymizeL l) = false ∧ searchTok run6Toks (anonymizeL l) = false := by
  have hPIIa : replPII = '[' :: ("PII_REMOVIDO".data ++ [']']) := by decide
  have hNuma : replNum = '[' :: ("NUM_REMOVIDO".data ++ [']']) := by decide
  have hA : anonymizeL l =
      (subScan (tryTok run6Toks) ('[' :: ("NUM_REMOVIDO".data ++ [']'])) none (subScan (tryTok fourteenToks) ('[' :: ("PII_REMOVIDO".data ++ [']'])) none (subScan (tryTok cnpjToks) ('[' :: ("PII_REMOVIDO".data ++ [']'])) none (subScan (tryTok elevenToks) ('[' :: ("PII_REMOVIDO".data ++ [']'])) none (subScan (tryTok cpfToks) ('[' :: ("PII_REMOVIDO".data ++ [']'])) none (subScan tryEmail replEmail none l)))))) := by
    rw [← hPIIa, ← hNuma]
    rfl
  have hvPII : ∀ x ∈ "PII_REMOVIDO".data, inLocal x = true := by decide
  have hvNum : ∀ x ∈ "NUM_REMOVIDO".data, inLocal x = true := by decide
  have hndPII : ∀ x ∈ ('[' :: ("PII_REMOVIDO".data ++ [']'])), ¬(isDigitCh x = true) := by
    decide
  have hndNum : ∀ x ∈ ('[' :: ("NUM_REMOVIDO".data ++ [']'])), ¬(isDigitCh x = true) := by
    decide
  have e2 : ∀ q : Option Char, hasScan tryEmail q (subScan (tryTok cpfToks) ('[' :: ("PII_REMOVIDO".data ++ [']'])) none (subScan tryEmail replEmail none l)) = false :=
    fun q => email_preserve (subScan tryEmail replEmail none l) none q none cpfToks "PII_REMOVIDO".data hvPII (email_selfelim l none none)
  have e3 : ∀ q : Option Char, hasScan tryEmail q (subScan (tryTok elevenToks) ('[' :: ("PII_REMOVIDO".data ++ [']'])) none (subScan (tryTok cpfToks) ('[' :: ("PII_REMOVIDO".data ++ [']'])) none (subScan tryEmail replEmail none l))) = false :=
    fun q => email_preserve (subScan (tryTok cpfToks) ('[' :: ("PII_REMOVIDO".data ++ [']'])) none (subScan tryEmail replEmail none l)) none q none elevenToks "PII_REMOVIDO".data hvPII (e2 none)
  have e4 : ∀ q : Option Char, hasScan tryEmail q (subScan (tryTok cnpjToks) ('[' :: ("PII_REMOVIDO".data ++ [']'])) none (subScan (tryTok elevenToks) ('[' :: ("PII_REMOVIDO".data ++ [']'])) none (subScan (tryTok cpfToks) ('[' :: ("PII_REMOVIDO".data ++ [']'])) none (subScan tryEmail replEmail none l)))) = false :=
    fun q => email_preserve (subScan (tryTok elevenToks) ('[' :: ("PII_REMOVIDO".data ++ [']'])) none (subScan (tryTok cpfToks) ('[' :: ("PII_REMOVIDO".data ++ [']'])) none (subScan tryEmail replEmail none l))) none q none cnpjToks "PII_REMOVIDO".data hvPII (e3 none)
  have e5 : ∀ q : Option Char, hasScan tryEmail q (subScan (tryTok fourteenToks) ('[' :: ("PII_REMOVIDO".data ++ [']'])) none (subScan (tryTok cnpjToks) ('[' :: ("PII_REMOVIDO".data ++ [']'])) none (subScan (tryTok elevenToks) ('[' :: ("PII_REMOVIDO".data ++ [']'])) none (subScan (tryTok cpfToks) ('[' :: ("PII_REMOVIDO".data ++ [']'])) none (subScan tryEmail replEmail none l))))) = false :=
    fun q => email_preserve (subScan (tryTok cnpjToks) ('[' :: ("PII_REMOVIDO".data ++ [']'])) none (subScan (tryTok elevenToks) ('[' :: ("PII_REMOVIDO".data ++ [']'])) none (subScan (tryTok cpfToks) ('[' :: ("PII_REMOVIDO".data ++ [']'])) none (subScan tryEmail replEmail none l)))) none q none fourteenToks "PII_REMOVIDO".data hvPII (e4 none)
  have e6 : ∀ q : Option Char, hasScan tryEmail q (subScan (tryTok run6Toks) ('[' :: ("NUM_REMOVIDO".data ++ [']'])) none (subScan (tryTok fourteenToks) ('[' :: ("PII_REMOVIDO".data ++ [']'])) none (subScan (tryTok cnpjToks) ('[' :: ("PII_REMOVIDO".data ++ [']'])) none (subScan (tryTok elevenToks) ('[' :: ("PII_REMOVIDO".data ++ [']'])) none (subScan (tryTok cpfToks) ('[' :: ("PII_REMOVIDO".data ++ [']'])) none (subScan tryEmail replEmail none l)))))) = false :=
    fun q => email_preserve (subScan (tryTok fourteenToks) ('[' :: ("PII_REMOVIDO".data ++ [']'])) none (subScan (tryTok cnpjToks) ('[' :: ("PII_REMOVIDO".data ++ [']'])) none (subScan (tryTok elevenToks) ('[' :: ("PII_REMOVIDO".data ++ [']'])) none (subScan (tryTok cpfToks) ('[' :: ("PII_REMOVIDO".data ++ [']'])) none (subScan tryEmail replEmail none l))))) none q none run6Toks "NUM_REMOVIDO".data hvNum (e5 none)
  have c2 : ∀ q : Option Char, hasScan (tryTok cpfToks) q (subScan (tryTok cpfToks) ('[' :: ("PII_REMOVIDO".data ++ [']'])) none (subScan tryEmail replEmail none l)) = false :=
    fun q => tok_selfelim (subScan tryEmail replEmail none l) none q cpfToks ("PII_REMOVIDO".data ++ [']']) (by decide) (by decide) (by decide) (by decide) hndPII
      (fun _ => Or.inl rfl)
  have c3 : ∀ q : Option Char, hasScan (tryTok cpfToks) q (subScan (tryTok elevenToks) ('[' :: ("PII_REMOVIDO".data ++ [']'])) none (subScan (tryTok cpfToks) ('[' :: ("PII_REMOVIDO".data ++ [']'])) none (subScan tryEmail replEmail none l))) = false :=
    fun q => tok_preserve (subScan (tryTok cpfToks) ('[' :: ("PII_REMOVIDO".data ++ [']'])) none (subScan tryEmail replEmail none l)) none q cpfToks elevenToks ("PII_REMOVIDO".data ++ [']']) (by decide) (by decide) (by decide) (by decide) (by decide) (by decide) hndPII (c2 q)
  have c4 : ∀ q : Option Char, hasScan (tryTok cpfToks) q (subScan (tryTok cnpjToks) ('[' :: ("PII_REMOVIDO".data ++ [']'])) none (subScan (tryTok elevenToks) ('[' :: ("PII_REMOVIDO".data ++ [']'])) none (subScan (tryTok cpfToks) ('[' :: ("PII_REMOVIDO".data ++ [']'])) none (subScan tryEmail replEmail none l)))) = false :=
    fun q => tok_preserve (subScan (tryTok elevenToks) ('[' :: ("PII_REMOVIDO".data ++ [']'])) none (subScan (tryTok cpfToks) ('[' :: ("PII_REMOVIDO".data ++ [']'])) none (subScan tryEmail replEmail none l))) none q cpfToks cnpjToks ("PII_REMOVIDO".data ++ [']']) (by decide) (by decide) (by decide) (by decide) (by decide) (by decide) hndPII (c3 q)
  have c5 : ∀ q : Option Char, hasScan (tryTok cpfToks) q (subScan (tryTok fourteenToks) ('[' :: ("PII_REMOVIDO".data ++ [']'])) none (subScan (tryTok cnpjToks) ('[' :: ("PII_REMOVIDO".data ++ [']'])) none (subScan (tryTok elevenToks) ('[' :: ("PII_REMOVIDO".data ++ [']'])) none (subScan (tryTok cpfToks) ('[' :: ("PII_REMOVIDO".data ++ [']'])) none (subScan tryEmail replEmail none l))))) = false :=
    fun q => tok_preserve (subScan (tryTok cnpjToks) ('[' :: ("PII_REMOVIDO".data ++ [']'])) none (subScan (tryTok elevenToks) ('[' :: ("PII_REMOVIDO".data ++ [']'])) none (subScan (tryTok cpfToks) ('[' :: ("PII_REMOVIDO".data ++ [']'])) none (subScan tryEmail replEmail none l)))) none q cpfToks fourteenToks ("PII_REMOVIDO".data ++ [']']) (by decide) (by decide) (by decide) (by decide) (by decide) (by decide) hndPII (c4 q)
  have c6 : ∀ q : Option Char, hasScan (tryTok cpfToks) q (subScan (tryTok run6Toks) ('[' :: ("NUM_REMOVIDO".data ++ [']'])) none (subScan (tryTok fourteenToks) ('[' :: ("PII_REMOVIDO".data ++ [']'])) none (subScan (tryTok cnpjToks) ('[' :: ("PII_REMOVIDO".data ++ [']'])) none (subScan (tryTok elevenToks) ('[' :: ("PII_REMOVIDO".data ++ [']'])) none (subScan (tryTok cpfToks) ('[' :: ("PII_REMOVIDO".data ++ [']'])) none (subScan tryEmail replEmail none l)))))) = false :=
    fun q => tok_preserve (subScan (tryTok fourteenToks) ('[' :: ("PII_REMOVIDO".data ++ [']'])) none (subScan (tryTok cnpjToks) ('[' :: ("PII_REMOVIDO".data ++ [']'])) none (subScan (tryTok elevenToks) ('[' :: ("PII_REMOVIDO".data ++ [']'])) none (subScan (tryTok cpfToks) ('[' :: ("PII_REMOVIDO".data ++ [']'])) none (subScan tryEmail replEmail none l))))) none q cpfToks run6Toks ("NUM_REMOVIDO".data ++ [']']) (by decide) (by decide) (by decide) (by decide) (by decide) (by decide) hndNum (c5 q)
  have v3 : ∀ q : Option Char, hasScan (tryTok elevenToks) q (subScan (tryTok elevenToks) ('[' :: ("PII_REMOVIDO".data ++ [']'])) none (subScan (tryTok cpfToks) ('[' :: ("PII_REMOVIDO".data ++ [']'])) none (subScan tryEmail replEmail none l))) = false :=
    fun q => tok_selfelim (subScan (tryTok cpfToks) ('[' :: ("PII_REMOVIDO".data ++ [']'])) none (subScan tryEmail replEmail none l)) none q elevenToks ("PII_REMOVIDO".data ++ [']']) (by decide) (by decide) (by decide) (by decide) hndPII
      (fun _ => Or.inl rfl)
  have v4 : ∀ q : Option Char, hasScan (tryTok elevenToks) q (subScan (tryTok cnpjToks) ('[' :: ("PII_REMOVIDO".data ++ [']'])) none (subScan (tryTok elevenToks) ('[' :: ("PII_REMOVIDO".data ++ [']'])) none (subScan (tryTok cpfToks) ('[' :: ("PII_REMOVIDO".data ++ [']'])) none (subScan tryEmail replEmail none l)))) = false :=
    fun q => tok_preserve (subScan (tryTok elevenToks) ('[' :: ("PII_REMOVIDO".data ++ [']'])) none (subScan (tryTok cpfToks) ('[' :: ("PII_REMOVIDO".data ++ [']'])) none (subScan tryEmail replEmail none l))) none q elevenToks cnpjToks ("PII_REMOVIDO".data ++ [']']) (by decide) (by decide) (by decide) (by decide) (by decide) (by decide) hndPII (v3 q)
  have v5 : ∀ q : Option Char, hasScan (tryTok elevenToks) q (subScan (tryTok fourteenToks) ('[' :: ("PII_REMOVIDO".data ++ [']'])) none (subScan (tryTok cnpjToks) ('[' :: ("PII_REMOVIDO".data ++ [']'])) none (subScan (tryTok elevenToks) ('[' :: ("PII_REMOVIDO".data ++ [']'])) none (subScan (tryTok cpfToks) ('[' :: ("PII_REMOVIDO".data ++ [']'])) none (subScan tryEmail replEmail none l))))) = false :=
    fun q => tok_preserve (subScan (tryTok cnpjToks) ('[' :: ("PII_REMOVIDO".data ++ [']'])) none (subScan (tryTok elevenToks) ('[' :: ("PII_REMOVIDO".data ++ [']'])) none (subScan (tryTok cpfToks) ('[' :: ("PII_REMOVIDO".data ++ [']'])) none (subScan tryEmail replEmail none l)))) none q elevenToks fourteenToks ("PII_REMOVIDO".data ++ [']']) (by decide) (by decide) (by decide) (by decide) (by decide) (by decide) hndPII (v4 q)
  have v6 : ∀ q : Option Char, hasScan (tryTok elevenToks) q (subScan (tryTok run6Toks) ('[' :: ("NUM_REMOVIDO".data ++ [']'])) none (subScan (tryTok fourteenToks) ('[' :: ("PII_REMOVIDO".data ++ [']'])) none (subScan (tryTok cnpjToks) ('[' :: ("PII_REMOVIDO".data ++ [']'])) none (subScan (tryTok elevenToks) ('[' :: ("PII_REMOVIDO".data ++ [']'])) none (subScan (tryTok cpfToks) ('[' :: ("PII_REMOVIDO".data ++ [']'])) none (subScan tryEmail replEmail none l)))))) = false :=
    fun q => tok_preserve (subScan (tryTok fourteenToks) ('[' :: ("PII_REMOVIDO".data ++ [']'])) none (subScan (tryTok cnpjToks) ('[' :: ("PII_REMOVIDO".data ++ [']'])) none (subScan (tryTok elevenToks) ('[' :: ("PII_REMOVIDO".data ++ [']'])) none (subScan (tryTok cpfToks) ('[' :: ("PII_REMOVIDO".data ++ [']'])) none (subScan tryEmail replEmail none l))))) none q elevenToks run6Toks ("NUM_REMOVIDO".data ++ [']']) (by decide) (by decide) (by decide) (by decide) (by decide) (by decide) hndNum (v5 q)
  have n4 : ∀ q : Option Char, hasScan (tryTok cnpjToks) q (subScan (tryTok cnpjToks) ('[' :: ("PII_REMOVIDO".data ++ [']'])) none (subScan (tryTok elevenToks) ('[' :: ("PII_REMOVIDO".data ++ [']'])) none (subScan (tryTok cpfToks) ('[' :: ("PII_REMOVIDO".data ++ [']'])) none (subScan tryEmail replEmail none l)))) = false :=
    fun q => tok_selfelim (subScan (tryTok elevenToks) ('[' :: ("PII_REMOVIDO".data ++ [']'])) none (subScan (tryTok cpfToks) ('[' :: ("PII_REMOVIDO".data ++ [']'])) none (subScan tryEmail replEmail none l))) none q cnpjToks ("PII_REMOVIDO".data ++ [']']) (by decide) (by decide) (by decide) (by decide) hndPII
      (fun _ => Or.inl rfl)
  have n5 : ∀ q : Option Char, hasScan (tryTok cnpjToks) q (subScan (tryTok fourteenToks) ('[' :: ("PII_REMOVIDO".data ++ [']'])) none (subScan (tryTok cnpjToks) ('[' :: ("PII_REMOVIDO".data ++ [']'])) none (subScan (tryTok elevenToks) ('[' :: ("PII_REMOVIDO".data ++ [']'])) none (subScan (tryTok cpfToks) ('[' :: ("PII_REMOVIDO".data ++ [']'])) none (subScan tryEmail replEmail none l))))) = false :=
    fun q => tok_preserve (subScan (tryTok cnpjToks) ('[' :: ("PII_REMOVIDO".data ++ [']'])) none (subScan (tryTok elevenToks) ('[' :: ("PII_REMOVIDO".data ++ [']'])) none (subScan (tryTok cpfToks) ('[' :: ("PII_REMOVIDO".data ++ [']'])) none (subScan tryEmail replEmail none l)))) none q cnpjToks fourteenToks ("PII_REMOVIDO".data ++ [']']) (by decide) (by decide) (by decide) (by decide) (by decide) (by decide) hndPII (n4 q)
  have n6 : ∀ q : Option Char, hasScan (tryTok cnpjToks) q (subScan (tryTok run6Toks) ('[' :: ("NUM_REMOVIDO".data ++ [']'])) none (subScan (tryTok fourteenToks) ('[' :: ("PII_REMOVIDO".data ++ [']'])) none (subScan (tryTok cnpjToks) ('[' :: ("PII_REMOVIDO".data ++ [']'])) none (subScan (tryTok elevenToks) ('[' :: ("PII_REMOVIDO".data ++ [']'])) none (subScan (tryTok cpfToks) ('[' :: ("PII_REMOVIDO".data ++ [']'])) none (subScan tryEmail replEmail none l)))))) = false :=
    fun q => tok_preserve (subScan (tryTok fourteenToks) ('[' :: ("PII_REMOVIDO".data ++ [']'])) none (subScan (tryTok cnpjToks) ('[' :: ("PII_REMOVIDO".data ++ [']'])) none (subScan (tryTok elevenToks) ('[' :: ("PII_REMOVIDO".data ++ [']'])) none (subScan (tryTok cpfToks) ('[' :: ("PII_REMOVIDO".data ++ [']'])) none (subScan tryEmail replEmail none l))))) none q cnpjToks run6Toks ("NUM_REMOVIDO".data ++ [']']) (by decide) (by decide) (by decide) (by decide) (by decide) (by decide) hndNum (n5 q)
  have f5 : ∀ q : Option Char, hasScan (tryTok fourteenToks) q (subScan (tryTok fourteenToks) ('[' :: ("PII_REMOVIDO".data ++ [']'])) none (subScan (tryTok cnpjToks) ('[' :: ("PII_REMOVIDO".data ++ [']'])) none (subScan (tryTok elevenToks) ('[' :: ("PII_REMOVIDO".data ++ [']'])) none (subScan (tryTok cpfToks) ('[' :: ("PII_REMOVIDO".data ++ [']'])) none (subScan tryEmail replEmail none l))))) = false :=
    fun q => tok_selfelim (subScan (tryTok cnpjToks) ('[' :: ("PII_REMOVIDO".data ++ [']'])) none (subScan (tryTok elevenToks) ('[' :: ("PII_REMOVIDO".data ++ [']'])) none (subScan (tryTok cpfToks) ('[' :: ("PII_REMOVIDO".data ++ [']'])) none (subScan tryEmail replEmail none l)))) none q fourteenToks ("PII_REMOVIDO".data ++ [']']) (by decide) (by decide) (by decide) (by decide) hndPII
      (fun _ => Or.inl rfl)
  have f6 : ∀ q : Option Char, hasScan (tryTok fourteenToks) q (subScan (tryTok run6Toks) ('[' :: ("NUM_REMOVIDO".data ++ [']'])) none (subScan (tryTok fourteenToks) ('[' :: ("PII_REMOVIDO".data ++ [']'])) none (subScan (tryTok cnpjToks) ('[' :: ("PII_REMOVIDO".data ++ [']'])) none (subScan (tryTok elevenToks) ('[' :: ("PII_REMOVIDO".data ++ [']'])) none (subScan (tryTok cpfToks) ('[' :: ("PII_REMOVIDO".data ++ [']'])) none (subScan tryEmail replEmail none l)))))) = false :=
    fun q => tok_preserve (subScan (tryTok fourteenToks) ('[' :: ("PII_REMOVIDO".data ++ [']'])) none (subScan (tryTok cnpjToks) ('[' :: ("PII_REMOVIDO".data ++ [']'])) none (subScan (tryTok elevenToks) ('[' :: ("PII_REMOVIDO".data ++ [']'])) none (subScan (tryTok cpfToks) ('[' :: ("PII_REMOVIDO".data ++ [']'])) none (subScan tryEmail replEmail none l))))) none q fourteenToks run6Toks ("NUM_REMOVIDO".data ++ [']']) (by decide) (by decide) (by decide) (by decide) (by decide) (by decide) hndNum (f5 q)
  have r6 : ∀ q : Option Char, hasScan (tryTok run6Toks) q (subScan (tryTok run6Toks) ('[' :: ("NUM_REMOVIDO".data ++ [']'])) none (subScan (tryTok fourteenToks) ('[' :: ("PII_REMOVIDO".data ++ [']'])) none (subScan (tryTok cnpjToks) ('[' :: ("PII_REMOVIDO".data ++ [']'])) none (subScan (tryTok elevenToks) ('[' :: ("PII_REMOVIDO".data ++ [']'])) none (subScan (tryTok cpfToks) ('[' :: ("PII_REMOVIDO".data ++ [']'])) none (subScan tryEmail replEmail none l)))))) = false :=
    fun q => tok_selfelim (subScan (tryTok fourteenToks) ('[' :: ("PII_REMOVIDO".data ++ [']'])) none (subScan (tryTok cnpjToks) ('[' :: ("PII_REMOVIDO".data ++ [']'])) none (subScan (tryTok elevenToks) ('[' :: ("PII_REMOVIDO".data ++ [']'])) none (subScan (tryTok cpfToks) ('[' :: ("PII_REMOVIDO".data ++ [']'])) none (subScan tryEmail replEmail none l))))) none q run6Toks ("NUM_REMOVIDO".data ++ [']']) (by decide) (by decide) (by decide) (by decide) hndNum
      (fun _ => Or.inl rfl)
  simp only [searchEmail, searchTok, hA]
  exact ⟨e6 none, c6 none, v6 none, n6 none, f6 none, r6 none⟩

/-- C8: `anonymize_text` removes every occurrence of the six PII patterns:
on any input string, the output contains no e-mail match, no dotted-CPF,
bare-11-digit, dotted-CNPJ, or bare-14-digit match, and no run of six or
more digits delimited by word boundaries; a non-string input (the `none`
case) yields the empty string without raising. -/
theorem claim_C8 :
    (∀ s : String,
      searchEmail (anonymize_text (some s)).data = false ∧
      searchTok cpfToks (anonymize_text (some s)).data = false ∧
      searchTok elevenToks (anonymize_text (some s)).data = false ∧
      searchTok cnpjToks (anonymize_text (some s)).data = false ∧
      searchTok fourteenToks (anonymize_text (some s)).data = false ∧
      searchTok run6Toks (anonymize_text (some s)).data = false) ∧
    anonymize_text none = "" := by
  refine ⟨fun s => ?_, rfl⟩
  exact anonymizeL_clean s.data
